import Mathlib

/- Verification development for the DataDictionary engine of
   flatfile_parser.py: a schema-driven decoder that turns fixed-width
   survey-record lines into labeled, typed value mappings.

   The embedding models Python values as the inductive type PyVal
   (None / bool / int / float / str), Python floats as exact rationals,
   insertion-ordered Python dicts as association lists, and uncaught
   Python exceptions as Option.none results.  re.search on the literal
   (metacharacter-free) patterns that actually occur in the data paths
   is modelled as substring containment. -/

namespace FlatFile

/- Rational arithmetic must evaluate definitionally for the concrete
witnesses below; the library marks these operations irreducible only to
steer simp, not for soundness. -/
attribute [local semireducible] Rat.add Rat.sub Rat.mul Rat.inv Rat.ofScientific

/-- Python values that flow through the data dictionary and decoded
records: None, booleans, ints, floats (modelled as exact rationals),
and strings. -/
inductive PyVal : Type
  | null : PyVal
  | bool : Bool → PyVal
  | int : Int → PyVal
  | float : ℚ → PyVal
  | str : String → PyVal
  deriving DecidableEq, Repr

/-- Numeric view of a Python value: Python treats bool as a subtype of
int, and compares int and float by numeric value. -/
def pyNum : PyVal → Option ℚ
  | .bool b => some (if b then 1 else 0)
  | .int n => some (n : ℚ)
  | .float q => some q
  | _ => Option.none

/-- Python `==` on the values in play: cross-type numeric equality for
bool/int/float, structural equality for strings and None, and False
between a numeric value and a string (or None). -/
def pyEq (a b : PyVal) : Bool :=
  match pyNum a, pyNum b with
  | some x, some y => decide (x = y)
  | _, _ =>
    match a, b with
    | .str s, .str t => decide (s = t)
    | .null, .null => true
    | _, _ => false

/-- First-match lookup in a string-keyed association list (insertion-
ordered model of a Python dict keyed by strings). -/
def lookupS {β : Type} : List (String × β) → String → Option β
  | [], _ => Option.none
  | (k, v) :: rest, key => if k = key then some v else lookupS rest key

/-- Python dict assignment for string keys: update in place if the key
is present (keeping its position), else append at the end. -/
def insertS {β : Type} : List (String × β) → String → β → List (String × β)
  | [], key, v => [(key, v)]
  | (k, w) :: rest, key, v =>
      if k = key then (k, v) :: rest else (k, w) :: insertS rest key v

/-- Python `del` for string keys (removes the key's entry). -/
def eraseS {β : Type} : List (String × β) → String → List (String × β)
  | [], _ => []
  | (k, w) :: rest, key =>
      if k = key then eraseS rest key else (k, w) :: eraseS rest key

/-- First-match lookup in a PyVal-keyed association list using Python
equality (int 9 and float 9.0 hit the same key, as in Python dicts). -/
def pyLookup {β : Type} : List (PyVal × β) → PyVal → Option β
  | [], _ => Option.none
  | (k, v) :: rest, key => if pyEq k key then some v else pyLookup rest key

/-- Python `key in dict` for PyVal keys. -/
def pyMem {β : Type} (m : List (PyVal × β)) (key : PyVal) : Bool :=
  (pyLookup m key).isSome

/-- Python dict assignment for PyVal keys: an update keeps the key
object originally stored (Python dicts retain the first-inserted key),
a new key is appended. -/
def pyInsert {β : Type} : List (PyVal × β) → PyVal → β → List (PyVal × β)
  | [], key, v => [(key, v)]
  | (k, w) :: rest, key, v =>
      if pyEq k key then (k, v) :: rest else (k, w) :: pyInsert rest key v

/-- Whitespace characters stripped by Python int()/float(). -/
def isPySpace (c : Char) : Bool :=
  c = ' ' || c = '\t' || c = '\n' || c = '\r'

/-- Strip leading and trailing whitespace (as Python int()/float() do). -/
def trimSpaces (s : List Char) : List Char :=
  ((s.dropWhile isPySpace).reverse.dropWhile isPySpace).reverse

/-- Numeric value of a list of decimal digit characters. -/
def digitsToNat (ds : List Char) : Nat :=
  ds.foldl (fun a c => a * 10 + (c.toNat - 48)) 0

/-- Maximal decimal-digit prefix of a character list, with the rest. -/
def takeDigits : List Char → List Char × List Char
  | [] => ([], [])
  | c :: rest =>
      if c.isDigit then
        let p := takeDigits rest
        (c :: p.1, p.2)
      else ([], c :: rest)

/-- Python int(s) on the decimal forms occurring in fixed-width data:
optional surrounding whitespace, optional sign, then at least one
digit.  Returns none where Python raises ValueError. -/
def pyIntParse (s : List Char) : Option Int :=
  match trimSpaces s with
  | [] => Option.none
  | '-' :: ds =>
      if ds ≠ [] ∧ ds.all Char.isDigit then some (-(digitsToNat ds : Int))
      else Option.none
  | '+' :: ds =>
      if ds ≠ [] ∧ ds.all Char.isDigit then some ((digitsToNat ds : Int))
      else Option.none
  | ds =>
      if ds.all Char.isDigit then some ((digitsToNat ds : Int))
      else Option.none

/-- Unsigned decimal float body: digits, optionally a dot and more
digits, at least one digit overall, nothing left over. -/
def floatCore (t : List Char) : Option ℚ :=
  let p := takeDigits t
  match p.2 with
  | [] => if p.1 = [] then Option.none else some ((digitsToNat p.1 : ℚ))
  | '.' :: r2 =>
      let q := takeDigits r2
      if q.2 = [] then
        if p.1 = [] ∧ q.1 = [] then Option.none
        else some ((digitsToNat p.1 : ℚ) +
          (digitsToNat q.1 : ℚ) / (10 : ℚ) ^ q.1.length)
      else Option.none
  | _ => Option.none

/-- Python float(s) on the plain decimal forms occurring in fixed-width
data (exponents, inf and nan do not occur in these files).  Returns
none where Python raises ValueError. -/
def pyFloatParse (s : List Char) : Option ℚ :=
  match trimSpaces s with
  | '-' :: t => (floatCore t).map (fun q => -q)
  | '+' :: t => floatCore t
  | t => floatCore t

/-- Python str() of the values in play.  (The float case would be
Python's float repr, which no verified code path reaches: value
dictionaries only hold string or boolean display values.) -/
def pyStr : PyVal → String
  | .null => "None"
  | .bool true => "True"
  | .bool false => "False"
  | .int n => toString n
  | .float q => toString q
  | .str s => s

/-- Normalize a Python slice index: negative indices count from the
end and everything is clamped to [0, n]. -/
def normIdx (n : Nat) (i : Int) : Nat :=
  if i < 0 then ((n : Int) + i).toNat else min n i.toNat

/-- Python s[a:b] slicing on a character list. -/
def pySlice (s : List Char) (a b : Int) : List Char :=
  (s.take (normIdx s.length b)).drop (normIdx s.length a)

/-- Python s[a:b] on a string. -/
def pySliceStr (s : String) (a b : Int) : String :=
  String.mk (pySlice s.data a b)

/-- Does `hay` start with `needle`? -/
def startsWithSub : List Char → List Char → Bool
  | _, [] => true
  | [], _ :: _ => false
  | c :: cs, d :: ds => c = d && startsWithSub cs ds

/-- Substring containment; models re.search for the metacharacter-free
literal patterns used by the decoder. -/
def containsSub : List Char → List Char → Bool
  | [], needle => needle.isEmpty
  | c :: rest, needle =>
      startsWithSub (c :: rest) needle || containsSub rest needle

/-- Substring containment on strings. -/
def strContains (hay needle : String) : Bool :=
  containsSub hay.data needle.data

/-- Scanner for re.search("(\d+)\.", s): the maximal digit run
immediately preceding the first dot that is preceded by at least one
digit; its numeric value, or none when no such match exists (where the
source's .group(1) call would raise AttributeError).  The accumulator
holds the current digit run, most recent character first. -/
def searchNumDotAux : List Char → List Char → Option Nat
  | [], _ => Option.none
  | c :: rest, run =>
      if c = '.' then
        if run = [] then searchNumDotAux rest []
        else some (digitsToNat run.reverse)
      else if c.isDigit then searchNumDotAux rest (c :: run)
      else searchNumDotAux rest []

/-- re.search("(\d+)\.", s), numeric value of group 1. -/
def searchNumDot (s : List Char) : Option Nat :=
  searchNumDotAux s []

/-- re.match("\d+\.(\d+)", s): from the start of the string, digits,
a dot, then at least one digit; numeric value of the digits after the
dot, or none when the pattern does not match. -/
def matchNumDotNum (s : List Char) : Option Nat :=
  let p := takeDigits s
  if p.1 = [] then Option.none
  else
    match p.2 with
    | '.' :: r2 =>
        let q := takeDigits r2
        if q.1 = [] then Option.none else some (digitsToNat q.1)
    | _ => Option.none

/-- Does the list start with a dollar sign followed by at least one
digit whose maximal run is followed by a dot (one position at which
re.search can match the pattern described below)? -/
def dollarNumDotAt : List Char → Bool
  | '$' :: rest =>
      let p := takeDigits rest
      decide (p.1 ≠ []) &&
        (match p.2 with | '.' :: _ => true | _ => false)
  | _ => false

/-- re.search of a dollar sign, then digits, then a dot, anywhere in
the line: the caller's string-width detection. -/
def containsDollarNumDot : List Char → Bool
  | [] => false
  | c :: rest => dollarNumDotAt (c :: rest) || containsDollarNumDot rest

/-- Sentinel constant FLAGGED_CASES of the source. -/
def FLAGGED_CASES : Int := 999999

/-- The marker display-name fragment BF_IDENTIFIER of the source. -/
def BF_IDENTIFIER : String := "When child put to breast"

/-- Absolute tolerance FLOAT_ERROR of the source, used for float
null-rule and value-dictionary matching. -/
def FLOAT_ERROR : ℚ := 1 / 1000

/-- A field's byte range as stored by add_bytewise_encoding:
0-based start position and exclusive end position. -/
structure ByteRange : Type where
  start_pos : Int
  end_pos : Int
  deriving DecidableEq, Repr

/-- The DataDictionary state: label-to-display-name map, label-to-
format-id map, display names seen, label-to-declared-type map,
label-to-byte-range map, per-label null rules, and per-format value
dictionaries.  Python dicts are insertion-ordered association lists. -/
structure DataDictionary : Type where
  name : String
  variable_dict : List (String × String)
  variable_format_dict : List (String × String)
  vbls_seen : List String
  variable_type : List (String × String)
  bytewise_encoding : List (String × ByteRange)
  null_encoding : List (String × List (PyVal × PyVal))
  value_dict : List (String × List (PyVal × PyVal))
  deriving DecidableEq, Repr

namespace DataDictionary

/-- DataDictionary.add_bytewise_encoding: the byte width is the digit
run before the first dot of the width token (an AttributeError,
modelled as none, when the token has no digits-then-dot); the stored
range is start_pos − 1 to start_pos + width − 1; the declared type is
float when the token matches digits-dot-digits from the start with a
positive fractional part, else int. -/
def add_bytewise_encoding (d : DataDictionary) (start_pos : Int)
    (vbl_label : String) (num_len_string : String) : Option DataDictionary :=
  match searchNumDot num_len_string.data with
  | Option.none => Option.none
  | some num_bytes =>
      let d1 : DataDictionary :=
        { d with bytewise_encoding := (insertS d.bytewise_encoding vbl_label
            ⟨start_pos - 1, start_pos + (num_bytes : Int) - 1⟩) }
      let ty : String :=
        match matchNumDotNum num_len_string.data with
        | some p => if 0 < p then "float" else "int"
        | Option.none => "int"
      some { d1 with variable_type := insertS d1.variable_type vbl_label ty }

/-- Helper of add_null_rule: store one null rule, creating the inner
dict when absent. -/
def addNullEntry (d : DataDictionary) (vbl_label : String)
    (key repl : PyVal) : DataDictionary :=
  let ne0 := (lookupS d.null_encoding vbl_label).getD []
  { d with null_encoding :=
      (insertS d.null_encoding vbl_label (pyInsert ne0 key repl)) }

/-- DataDictionary.add_null_rule: for an int-typed label the trigger is
int(null_value) (ValueError modelled as none), for a float-typed label
float(null_value), mapping to None; for any other known type the raw
string maps to the empty string; for an unknown label the raw string
maps to None. -/
def add_null_rule (d : DataDictionary) (vbl_label : String)
    (null_value : String) : Option DataDictionary :=
  match lookupS d.variable_type vbl_label with
  | some "int" =>
      match pyIntParse null_value.data with
      | Option.none => Option.none
      | some n => some (addNullEntry d vbl_label (.int n) .null)
  | some "float" =>
      match pyFloatParse null_value.data with
      | Option.none => Option.none
      | some q => some (addNullEntry d vbl_label (.float q) .null)
  | some _ => some (addNullEntry d vbl_label (.str null_value) (.str ""))
  | Option.none => some (addNullEntry d vbl_label (.str null_value) .null)

end DataDictionary

/-- The display values that clean_formats treats as null markers when
they are the single entry of a value dictionary. -/
def sentinelNames : List String :=
  ["Don't know", "DK", "DK ", "No calendar", "Flagged cases", "No births"]

/-- Is a display value one of the null-marker names? -/
def isSentinelDisp (v : PyVal) : Bool :=
  sentinelNames.any (fun s => pyEq v (.str s))

/-- Python set(values) == set of the strings Yes and No. -/
def yesNoValues (es : List (PyVal × PyVal)) : Bool :=
  es.any (fun kv => pyEq kv.2 (.str "Yes")) &&
  es.any (fun kv => pyEq kv.2 (.str "No")) &&
  es.all (fun kv => pyEq kv.2 (.str "Yes") || pyEq kv.2 (.str "No"))

/-- Replace the display value Yes by True and every other display value
by False, per key, as clean_formats does in its two-entry branch. -/
def toBoolYesNo (es : List (PyVal × PyVal)) : List (PyVal × PyVal) :=
  es.map (fun kv =>
    (kv.1, if pyEq kv.2 (.str "Yes") then PyVal.bool true else PyVal.bool false))

/-- The null replacement clean_formats stores for a single-entry value
dictionary: empty string for string-typed labels, None otherwise, then
overridden to 999999 for Flagged cases and to 0 for No births (the code
assigns the base value first and the overrides afterwards; the net
stored value is modelled here). -/
def nullReplacement (ty : String) (disp : PyVal) : PyVal :=
  let base := if ty = "string" then PyVal.str "" else PyVal.null
  let r1 := if pyEq disp (.str "Flagged cases") then PyVal.int FLAGGED_CASES else base
  if pyEq disp (.str "No births") then PyVal.int 0 else r1

/-- The loop state of clean_formats: erased_format_values,
formats_seen, and the dictionary being mutated. -/
structure CleanSt : Type where
  erased : List (String × List (PyVal × PyVal))
  seen : List String
  d : DataDictionary
  deriving Repr

/-- One iteration of the clean_formats loop, for one label of the key
snapshot.  none models an uncaught exception (the variable_type KeyError
of the sentinel branch).  The branches mirror the source: a format with
no value dictionary loses the association and inherits a previously
erased format's null mapping; a single-entry dictionary whose display
value is a null-marker name (for a format not yet seen) is converted to
a null rule and erased; a two-entry Yes/No dictionary is converted to
booleans; finally the format is marked seen and the association is
dropped when its dictionary was erased. -/
def cleanStep (st : CleanSt) (vbl_label : String) : Option CleanSt :=
  match lookupS st.d.variable_format_dict vbl_label with
  | Option.none => Option.none
  | some vbl_format =>
    match lookupS st.d.value_dict vbl_format with
    | Option.none =>
        let d1 : DataDictionary :=
          { st.d with variable_format_dict :=
              (eraseS st.d.variable_format_dict vbl_label) }
        match lookupS st.erased vbl_format with
        | some entries =>
            let ne0 := (lookupS d1.null_encoding vbl_label).getD []
            let ne1 := entries.foldl (fun m kv => pyInsert m kv.1 kv.2) ne0
            some { st with d :=
              { d1 with null_encoding := insertS d1.null_encoding vbl_label ne1 } }
        | Option.none => some { st with d := d1 }
    | some es =>
        let st1opt : Option CleanSt :=
          if es.length = 1 ∧ vbl_format ∉ st.seen then
            match es with
            | [] => some st
            | (value, disp) :: _ =>
                if isSentinelDisp disp then
                  match lookupS st.d.variable_type vbl_label with
                  | Option.none => Option.none
                  | some ty =>
                      let repl := nullReplacement ty disp
                      let ne0 := (lookupS st.d.null_encoding vbl_label).getD []
                      some { st with
                        erased := (insertS st.erased vbl_format [(value, repl)]),
                        d := { st.d with
                          null_encoding := (insertS st.d.null_encoding
                            vbl_label (pyInsert ne0 value repl)),
                          value_dict := (eraseS st.d.value_dict vbl_format) } }
                else some st
          else if es.length = 2 ∧ yesNoValues es then
            some { st with d :=
              { st.d with value_dict :=
                  (insertS st.d.value_dict vbl_format (toBoolYesNo es)) } }
          else some st
        match st1opt with
        | Option.none => Option.none
        | some st1 =>
            let seen1 :=
              if vbl_format ∈ st1.seen then st1.seen else vbl_format :: st1.seen
            if (lookupS st1.d.value_dict vbl_format).isSome then
              some { st1 with seen := seen1 }
            else
              some { erased := st1.erased, seen := seen1,
                     d := { st1.d with variable_format_dict :=
                       (eraseS st1.d.variable_format_dict vbl_label) } }

namespace DataDictionary

/-- DataDictionary.clean_formats: fold cleanStep over a snapshot of the
variable_format_dict keys, starting from empty erased_format_values and
formats_seen.  none models an uncaught exception. -/
def clean_formats (d : DataDictionary) : Option DataDictionary :=
  (List.foldlM cleanStep
      { erased := [], seen := [], d := d }
      (d.variable_format_dict.map Prod.fst)).map CleanSt.d

end DataDictionary

/-- Is the extracted substring entirely spaces or entirely asterisks
(including the empty substring)? -/
def allSpacesOrStars (s : String) : Bool :=
  s.data.all (fun c => c = ' ') || s.data.all (fun c => c = '*')

/-- The multi-select collection loop of the string branch: for each
value-dictionary entry in order, re.search the key in the raw value
(substring containment for these literal keys) and collect the display
value on a hit.  A non-string key makes re.search raise TypeError,
modelled as none. -/
def multiSelectCollect (valueStr : String) :
    List (PyVal × PyVal) → List PyVal → Option (List PyVal)
  | [], ds => some ds.reverse
  | (k, disp) :: rest, ds =>
      match k with
      | .str ks =>
          if strContains valueStr ks then
            multiSelectCollect valueStr rest (disp :: ds)
          else multiSelectCollect valueStr rest ds
      | _ => Option.none

/-- The strings of the collected display values; a non-string display
value makes the join raise TypeError, modelled as none. -/
def joinDisplays : List PyVal → Option (List String)
  | [] => some []
  | .str s :: rest => (joinDisplays rest).map (fun t => s :: t)
  | _ => Option.none

/-- The multi-select decoding of the string branch: collect the display
values of every key contained in the raw value and comma-join them. -/
def multiSelect (es : List (PyVal × PyVal)) (value : PyVal) : Option String :=
  match value with
  | .str s =>
      match multiSelectCollect s es [] with
      | Option.none => Option.none
      | some ds => (joinDisplays ds).map (String.intercalate ", ")
  | _ => Option.none

/-- The float tolerance scan: walk the entries in order; comparing the
parsed value against a non-numeric key raises TypeError (outer none);
the first key within FLOAT_ERROR yields its mapped value (inner some);
otherwise no match (inner none). -/
def floatTolScan (v : ℚ) : List (PyVal × PyVal) → Option (Option PyVal)
  | [] => some Option.none
  | (k, w) :: rest =>
      match pyNum k with
      | Option.none => Option.none
      | some kq =>
          if |v - kq| ≤ FLOAT_ERROR then some (some w) else floatTolScan v rest

/-- Lines 248-274 of the source: the shared tail of the int and string
branches.  An exact null-rule key match emits the replacement; else an
exact value-dictionary key match emits the display value; else a
string-typed field does multi-select decoding; else a numeric value is
emitted as str(value); a missing value dictionary omits the field; a
field with no format association emits the value itself (the source's
final int(value) is the identity there, the value being already an
int whenever the declared type is int). -/
def genericTail (d : DataDictionary) (vbl_label vbl_name : String)
    (value : PyVal) (ty : String) (acc : List (String × PyVal)) :
    Option (List (String × PyVal)) :=
  match (lookupS d.null_encoding vbl_label).bind (fun ne => pyLookup ne value) with
  | some repl => some (insertS acc vbl_name repl)
  | Option.none =>
    match lookupS d.variable_format_dict vbl_label with
    | some vbl_format =>
      match lookupS d.value_dict vbl_format with
      | some es =>
        match pyLookup es value with
        | some disp => some (insertS acc vbl_name disp)
        | Option.none =>
          if ty = "string" then
            match multiSelect es value with
            | some joined => some (insertS acc vbl_name (.str joined))
            | Option.none => Option.none
          else some (insertS acc vbl_name (.str (pyStr value)))
      | Option.none => some acc
    | Option.none => some (insertS acc vbl_name value)

/-- Lines 216-246 of the source: the float branch after a successful
float parse.  Null rules are scanned with tolerance first; then the
value dictionary of the field's format, emitting str(display) on a
match and the raw numeric value when no key matches; a missing value
dictionary omits the field; no format association emits the raw
numeric value. -/
def floatTail (d : DataDictionary) (vbl_label vbl_name : String)
    (v : ℚ) (acc : List (String × PyVal)) : Option (List (String × PyVal)) :=
  let afterNull : Option (List (String × PyVal)) :=
    match lookupS d.variable_format_dict vbl_label with
    | some vbl_format =>
      match lookupS d.value_dict vbl_format with
      | some es =>
        match floatTolScan v es with
        | Option.none => Option.none
        | some (some disp) => some (insertS acc vbl_name (.str (pyStr disp)))
        | some Option.none => some (insertS acc vbl_name (.float v))
      | Option.none => some acc
    | Option.none => some (insertS acc vbl_name (.float v))
  match lookupS d.null_encoding vbl_label with
  | some ne =>
    match floatTolScan v ne with
    | Option.none => Option.none
    | some (some repl) => some (insertS acc vbl_name repl)
    | some Option.none => afterNull
  | Option.none => afterNull

/-- Lines 178-274 of the source: decoding of one field once its
substring has been extracted from the record.  A label with no display
name is skipped; an all-space or all-asterisk substring decodes to
None (empty string for string-typed fields); a display name containing
BF_IDENTIFIER takes the marker branch, whose bare int conversion can
raise (none); otherwise the declared type selects the int, float or
string decoding path. -/
def decodeValue (d : DataDictionary) (vbl_label : String) (value : String)
    (acc : List (String × PyVal)) : Option (List (String × PyVal)) :=
  match lookupS d.variable_dict vbl_label with
  | Option.none => some acc
  | some vbl_name =>
    if allSpacesOrStars value then
      match lookupS d.variable_type vbl_label with
      | Option.none => Option.none
      | some ty =>
          some (insertS acc vbl_name (if ty = "string" then .str "" else .null))
    else if strContains vbl_name BF_IDENTIFIER then
      match pyIntParse value.data with
      | Option.none => Option.none
      | some v =>
          if v = 0 then some (insertS acc vbl_name (.str "Immediately"))
          else if 100 < v ∧ v < 200 then
            some (insertS acc vbl_name (.str (toString (v - 100) ++ " hours")))
          else if 200 < v ∧ v < 300 then
            some (insertS acc vbl_name (.str (toString (v - 200) ++ " days")))
          else some acc
    else
      match lookupS d.variable_type vbl_label with
      | Option.none => Option.none
      | some ty =>
        if ty = "int" then
          match pyIntParse value.data with
          | Option.none => some acc
          | some n => genericTail d vbl_label vbl_name (.int n) ty acc
        else if ty = "float" then
          match pyFloatParse value.data with
          | Option.none => some acc
          | some q => floatTail d vbl_label vbl_name q acc
        else genericTail d vbl_label vbl_name (.str value) ty acc

/-- One iteration of the parse loop, decoding one field of the record
into the accumulated output mapping: a field whose byte-range end
reaches len(record) − 1 is skipped, otherwise the substring over the
range is extracted and decoded.  none models an uncaught exception. -/
def parseField (d : DataDictionary) (record : String)
    (acc : List (String × PyVal)) (vbl_label : String) :
    Option (List (String × PyVal)) :=
  match lookupS d.bytewise_encoding vbl_label with
  | Option.none => Option.none
  | some bd =>
    if bd.end_pos ≥ (record.length : Int) - 1 then some acc
    else decodeValue d vbl_label (pySliceStr record bd.start_pos bd.end_pos) acc

namespace DataDictionary

/-- DataDictionary.parse: fold the per-field decoder over the
bytewise_encoding keys, building the record's output mapping.  none
models an uncaught exception escaping parse. -/
def parse (d : DataDictionary) (record : String) :
    Option (List (String × PyVal)) :=
  List.foldlM (parseField d record) [] (d.bytewise_encoding.map Prod.fst)

end DataDictionary

/-- The record loop of main: the DataDictionary object is threaded
through the iterations (main never rebinds it inside the loop), and
each record's parse result is appended to the collected outputs. -/
def recordLoop (d : DataDictionary) (records : List String) :
    List (Option (List (String × PyVal))) :=
  (records.foldl
    (fun st r => (st.1, st.2 ++ [DataDictionary.parse st.1 r]))
    (d, ([] : List (Option (List (String × PyVal)))))).2

/-- The caller's byte-position handling (lines 431-438 of the source):
register the positional field, then mark the declared type string when
the schema line contains a dollar sign, digits and a dot. -/
def registerPositionalField (d : DataDictionary) (start_pos : Int)
    (vbl_label : String) (num_len_string : String) (line : String) :
    Option DataDictionary :=
  match d.add_bytewise_encoding start_pos vbl_label num_len_string with
  | Option.none => Option.none
  | some d1 =>
      if containsDollarNumDot line.data then
        some { d1 with variable_type := (insertS d1.variable_type vbl_label "string") }
      else some d1

/- ### Basic association-list lemmas -/

theorem lookupS_insertS_self {β : Type} (as : List (String × β)) (k : String) (v : β) :
    lookupS (insertS as k v) k = some v := by
  induction as with
  | nil => simp [insertS, lookupS]
  | cons hd tl ih =>
      obtain ⟨a, b⟩ := hd
      by_cases h : a = k
      · simp [insertS, h, lookupS]
      · simp [insertS, h, lookupS, ih]

theorem lookupS_insertS_ne {β : Type} (as : List (String × β)) (k k' : String) (v : β)
    (h : k' ≠ k) : lookupS (insertS as k v) k' = lookupS as k' := by
  induction as with
  | nil => simp [insertS, lookupS, Ne.symm h]
  | cons hd tl ih =>
      obtain ⟨a, b⟩ := hd
      by_cases ha : a = k
      · subst ha
        simp [insertS, lookupS, Ne.symm h]
      · simp only [insertS, if_neg ha, lookupS]
        by_cases ha' : a = k'
        · simp [ha']
        · simp [ha', ih]

theorem lookupS_eraseS {β : Type} (as : List (String × β)) (k k' : String) :
    lookupS (eraseS as k) k' = if k' = k then Option.none else lookupS as k' := by
  induction as with
  | nil => simp [eraseS, lookupS]
  | cons hd tl ih =>
      obtain ⟨a, b⟩ := hd
      by_cases ha : a = k
      · subst ha
        by_cases hk : k' = a
        · subst hk
          simpa [eraseS] using ih
        · simp [eraseS, lookupS, ih, hk, Ne.symm hk]
      · by_cases ha' : a = k'
        · subst ha'
          simp [eraseS, ha, lookupS, Ne.symm ha]
        · simp [eraseS, ha, lookupS, ha', ih]

theorem lookupS_isSome_of_mem_keys {β : Type} (as : List (String × β)) (l : String)
    (h : l ∈ as.map Prod.fst) : (lookupS as l).isSome := by
  induction as with
  | nil => simp at h
  | cons hd tl ih =>
      obtain ⟨a, b⟩ := hd
      by_cases ha : a = l
      · simp [lookupS, ha]
      · rw [List.map_cons, List.mem_cons] at h
        rcases h with h | h
        · exact absurd h.symm ha
        · simpa [lookupS, ha] using ih h

theorem mem_keys_of_lookupS {β : Type} (as : List (String × β)) (l : String) (v : β)
    (h : lookupS as l = some v) : l ∈ as.map Prod.fst := by
  induction as with
  | nil => simp [lookupS] at h
  | cons hd tl ih =>
      obtain ⟨a, b⟩ := hd
      rw [List.map_cons, List.mem_cons]
      by_cases ha : a = l
      · exact Or.inl ha.symm
      · simp only [lookupS, if_neg ha] at h
        exact Or.inr (ih h)

/- ### Slicing lemmas -/

theorem pySlice_eq_drop_take (s : List Char) (a b : Int)
    (h0 : 0 ≤ a) (hab : a ≤ b) (hb : b ≤ (s.length : Int)) :
    pySlice s a b = (s.drop a.toNat).take (b.toNat - a.toNat) := by
  have ha' : normIdx s.length a = a.toNat := by
    simp only [normIdx, if_neg (not_lt.mpr h0)]
    omega
  have hb' : normIdx s.length b = b.toNat := by
    have h0b : 0 ≤ b := le_trans h0 hab
    simp only [normIdx, if_neg (not_lt.mpr h0b)]
    omega
  simp [pySlice, ha', hb', List.drop_take]

theorem pySlice_length (s : List Char) (a b : Int)
    (h0 : 0 ≤ a) (hab : a ≤ b) (hb : b ≤ (s.length : Int)) :
    (pySlice s a b).length = b.toNat - a.toNat := by
  rw [pySlice_eq_drop_take s a b h0 hab hb]
  rw [List.length_take, List.length_drop]
  omega

/- ### Width-token scanner lemmas -/

theorem takeDigits_of_all (ds : List Char) (h : ds.all Char.isDigit) :
    takeDigits ds = (ds, []) := by
  induction ds with
  | nil => simp [takeDigits]
  | cons c cs ih =>
      simp only [List.all_cons, Bool.and_eq_true] at h
      simp [takeDigits, h.1, ih h.2]

theorem takeDigits_append_stop (ds : List Char) (c : Char) (r : List Char)
    (h : ds.all Char.isDigit) (hc : c.isDigit = false) :
    takeDigits (ds ++ c :: r) = (ds, c :: r) := by
  induction ds with
  | nil => simp [takeDigits, hc]
  | cons d dsl ih =>
      simp only [List.all_cons, Bool.and_eq_true] at h
      simp [takeDigits, h.1, ih h.2]

theorem searchNumDotAux_spec (ds ps : List Char) (hne : ds ≠ [])
    (h : ds.all Char.isDigit) :
    ∀ run : List Char, searchNumDotAux (ds ++ '.' :: ps) run
      = some (digitsToNat (run.reverse ++ ds)) := by
  induction ds with
  | nil => exact absurd rfl hne
  | cons c cs ih =>
      intro run
      simp only [List.all_cons, Bool.and_eq_true] at h
      have hcdot : c ≠ '.' := by
        intro hh
        rw [hh] at h
        simp at h
      rcases eq_or_ne cs [] with hcs | hcs
      · subst hcs
        simp only [List.cons_append, List.nil_append, searchNumDotAux,
          if_neg hcdot, h.1, if_pos rfl]
        simp [searchNumDotAux]
      · have hrec := ih hcs h.2 (c :: run)
        simp only [List.reverse_cons, List.append_assoc, List.singleton_append] at hrec
        simpa [searchNumDotAux, hcdot, h.1] using hrec

theorem searchNumDot_spec (ds ps : List Char) (hne : ds ≠ [])
    (h : ds.all Char.isDigit) :
    searchNumDot (ds ++ '.' :: ps) = some (digitsToNat ds) := by
  simpa [searchNumDot] using searchNumDotAux_spec ds ps hne h []

theorem matchNumDotNum_spec (ds ps : List Char) (hne : ds ≠ [])
    (hds : ds.all Char.isDigit) (hps : ps.all Char.isDigit) :
    matchNumDotNum (ds ++ '.' :: ps) =
      if ps = [] then Option.none else some (digitsToNat ps) := by
  have h1 := takeDigits_append_stop ds '.' ps hds (by decide)
  by_cases hp : ps = []
  · subst hp
    simp [matchNumDotNum, h1, hne, takeDigits]
  · simp [matchNumDotNum, h1, hne, takeDigits_of_all ps hps, hp]

theorem containsDollarNumDot_spec (pre ds post : List Char) (hne : ds ≠ [])
    (hds : ds.all Char.isDigit) :
    containsDollarNumDot (pre ++ '$' :: (ds ++ '.' :: post)) = true := by
  induction pre with
  | nil =>
      simp [containsDollarNumDot, dollarNumDotAt,
        takeDigits_append_stop ds '.' post hds (by decide), hne]
  | cons c cs ih => simp [containsDollarNumDot, ih]

/- ### Float tolerance-scan and multi-select characterizations -/

/-- The tolerance predicate of the float scans: does the entry's key,
viewed numerically, lie within FLOAT_ERROR of the parsed value? -/
def tolMatch (v : ℚ) (kv : PyVal × PyVal) : Bool :=
  match pyNum kv.1 with
  | some k => decide (|v - k| ≤ FLOAT_ERROR)
  | Option.none => false

theorem floatTolScan_eq_find (v : ℚ) (es : List (PyVal × PyVal))
    (h : ∀ kv ∈ es, (pyNum kv.1).isSome) :
    floatTolScan v es = some ((es.find? (tolMatch v)).map Prod.snd) := by
  induction es with
  | nil => simp [floatTolScan]
  | cons kv rest ih =>
      obtain ⟨k, w⟩ := kv
      have hk := h (k, w) (List.mem_cons_self _ _)
      match hnum : pyNum k with
      | Option.none =>
          rw [hnum] at hk
          simp at hk
      | some kq =>
          by_cases hle : |v - kq| ≤ FLOAT_ERROR
          · simp [floatTolScan, hnum, List.find?, tolMatch, hle]
          · simp [floatTolScan, hnum, List.find?, tolMatch, hle,
              ih (fun kv hm => h kv (List.mem_cons_of_mem _ hm))]

/-- The display values of the value-dictionary keys contained in the
raw substring, in dictionary iteration order (the result of
multi-select decoding when keys and displays are strings). -/
def matchedDisplays (sub : String) (es : List (PyVal × PyVal)) : List String :=
  es.filterMap (fun kv =>
    match kv.1, kv.2 with
    | .str ks, .str dsp => if strContains sub ks then some dsp else Option.none
    | _, _ => Option.none)

theorem joinDisplays_map_str (ds : List String) :
    joinDisplays (ds.map PyVal.str) = some ds := by
  induction ds with
  | nil => simp [joinDisplays]
  | cons s rest ih => simp [joinDisplays, ih]

theorem multiSelectCollect_spec (sub : String) (es : List (PyVal × PyVal))
    (h : ∀ kv ∈ es, (∃ ks, kv.1 = PyVal.str ks) ∧ ∃ dsp, kv.2 = PyVal.str dsp) :
    ∀ acc0 : List PyVal, multiSelectCollect sub es acc0
      = some (acc0.reverse ++ (matchedDisplays sub es).map PyVal.str) := by
  induction es with
  | nil => intro acc0; simp [multiSelectCollect, matchedDisplays]
  | cons kv rest ih =>
      intro acc0
      obtain ⟨⟨ks, hks⟩, ⟨dsp, hdsp⟩⟩ := h kv (List.mem_cons_self _ _)
      obtain ⟨k, w⟩ := kv
      simp only at hks hdsp
      subst hks
      subst hdsp
      have ih' := ih (fun kv hm => h kv (List.mem_cons_of_mem _ hm))
      by_cases hc : strContains sub ks = true
      · rw [show multiSelectCollect sub ((PyVal.str ks, PyVal.str dsp) :: rest) acc0
            = multiSelectCollect sub rest (PyVal.str dsp :: acc0) by
              simp [multiSelectCollect, hc]]
        rw [ih' (PyVal.str dsp :: acc0)]
        simp [matchedDisplays, List.filterMap_cons, hc, List.append_assoc]
      · rw [show multiSelectCollect sub ((PyVal.str ks, PyVal.str dsp) :: rest) acc0
            = multiSelectCollect sub rest acc0 by
              simp [multiSelectCollect, hc]]
        rw [ih' acc0]
        simp [matchedDisplays, List.filterMap_cons, hc]

theorem multiSelect_spec (sub : String) (es : List (PyVal × PyVal))
    (h : ∀ kv ∈ es, (∃ ks, kv.1 = PyVal.str ks) ∧ ∃ dsp, kv.2 = PyVal.str dsp) :
    multiSelect es (.str sub)
      = some (String.intercalate ", " (matchedDisplays sub es)) := by
  simp [multiSelect, multiSelectCollect_spec sub es h [], joinDisplays_map_str]

/- ### Sample dictionaries used by witnesses and counterexamples -/

/-- A finalized dictionary with a single marker field ("When child put
to breast") occupying bytes 0-2, declared int. -/
def markerDict : DataDictionary :=
  { name := "SAMPLE", variable_dict := [("B1", "B1 When child put to breast")],
    variable_format_dict := [], vbls_seen := [],
    variable_type := [("B1", "int")],
    bytewise_encoding := [("B1", ⟨0, 3⟩)],
    null_encoding := [], value_dict := [] }

/-- A float-typed field with a null rule keyed at 9.0 mapping to None. -/
def floatNullDict : DataDictionary :=
  { name := "SAMPLE", variable_dict := [("Q5", "Q5 months")],
    variable_format_dict := [], vbls_seen := [],
    variable_type := [("Q5", "float")],
    bytewise_encoding := [("Q5", ⟨0, 6⟩)],
    null_encoding := [("Q5", [(.float 9, .null)])], value_dict := [] }

/-- A string-typed multi-select field whose format dictionary maps the
keys A, B, C to Alpha, Beta, Gamma. -/
def multiDict : DataDictionary :=
  { name := "SAMPLE", variable_dict := [("QM", "QM methods")],
    variable_format_dict := [("QM", "FM")], vbls_seen := [],
    variable_type := [("QM", "string")],
    bytewise_encoding := [("QM", ⟨0, 2⟩)],
    null_encoding := [],
    value_dict := [("FM", [(.str "A", .str "Alpha"), (.str "B", .str "Beta"),
                           (.str "C", .str "Gamma")])] }

/-- Scenario C of the spec: a string-typed field whose format F2 has
the single entry 9 mapped to the display value Don't know. -/
def scenarioCDict : DataDictionary :=
  { name := "SAMPLE", variable_dict := [("Q9", "Q9 answer")],
    variable_format_dict := [("Q9", "F2")], vbls_seen := [],
    variable_type := [("Q9", "string")],
    bytewise_encoding := [("Q9", ⟨0, 1⟩)],
    null_encoding := [],
    value_dict := [("F2", [(.int 9, .str "Don't know")])] }

/-- A format whose single-entry dictionary has a display value that is
not one of the six null-marker names. -/
def otherSingleDict : DataDictionary :=
  { name := "SAMPLE", variable_dict := [("Q1", "Q1 other")],
    variable_format_dict := [("Q1", "F9")], vbls_seen := [],
    variable_type := [("Q1", "int")],
    bytewise_encoding := [("Q1", ⟨0, 1⟩)],
    null_encoding := [],
    value_dict := [("F9", [(.int 9, .str "Other")])] }

/-- Scenario B of the spec: an int-typed field whose format F1 maps
1 to Yes and 2 to No. -/
def yesNoDict : DataDictionary :=
  { name := "SAMPLE", variable_dict := [("Q2", "Q2 consent")],
    variable_format_dict := [("Q2", "F1")], vbls_seen := [],
    variable_type := [("Q2", "int")],
    bytewise_encoding := [("Q2", ⟨0, 1⟩)],
    null_encoding := [],
    value_dict := [("F1", [(.int 1, .str "Yes"), (.int 2, .str "No")])] }

/- ### Claim C10: parse is read-only; batch decoding is order-independent -/

theorem recordLoop_state_fixed (d : DataDictionary) (rs : List String) :
    ∀ out, (rs.foldl
      (fun st r => (st.1, st.2 ++ [DataDictionary.parse st.1 r]))
      ((d, out) : DataDictionary × List (Option (List (String × PyVal))))).1 = d := by
  induction rs with
  | nil => intro out; rfl
  | cons r rest ih => intro out; simpa [List.foldl_cons] using ih (out ++ [DataDictionary.parse d r])

theorem recordLoop_eq_map (d : DataDictionary) (rs : List String) :
    recordLoop d rs = rs.map (DataDictionary.parse d) := by
  suffices h : ∀ out, (rs.foldl
      (fun st r => (st.1, st.2 ++ [DataDictionary.parse st.1 r]))
      ((d, out) : DataDictionary × List (Option (List (String × PyVal))))).2
      = out ++ rs.map (DataDictionary.parse d) by
    simpa [recordLoop] using h []
  induction rs with
  | nil => intro out; simp
  | cons r rest ih =>
      intro out
      simpa [List.foldl_cons] using ih (out ++ [DataDictionary.parse d r])

/-- Claim C10: parse never mutates the dictionary (the fold state
threaded through main's record loop is the unchanged dictionary), and
in consequence the decoded output of a record does not depend on which
records were decoded before it against the same dictionary. -/
theorem claim_C10 (d : DataDictionary) (earlier : List String) (r : String) :
    ((earlier ++ [r]).foldl
      (fun st rr => (st.1, st.2 ++ [DataDictionary.parse st.1 rr]))
      (d, ([] : List (Option (List (String × PyVal)))))).1 = d ∧
    (recordLoop d (earlier ++ [r])).getLast? = some (DataDictionary.parse d r) := by
  constructor
  · exact recordLoop_state_fixed d (earlier ++ [r]) []
  · simp [recordLoop_eq_map, List.map_append, List.getLast?_concat]

/- ### Claim C8: the line-length skip boundary -/

/-- Claim C8 (amended): a field is skipped on line-length grounds
exactly when its byte-range end is greater than or equal to
len(rawLine) − 1 (so also when it equals len(rawLine) − 1, one more
case than the claim's "exceeds"); when the end is strictly below
len(rawLine) − 1 the substring over the range — exactly
end − start bytes of the record starting at the 0-based start
position — is extracted and the field proceeds to normal decoding. -/
theorem claim_C8_amended (d : DataDictionary) (record : String)
    (acc : List (String × PyVal)) (l : String) (bd : ByteRange)
    (hbd : lookupS d.bytewise_encoding l = some bd) :
    (bd.end_pos ≥ (record.length : Int) - 1 → parseField d record acc l = some acc) ∧
    (bd.end_pos < (record.length : Int) - 1 →
      parseField d record acc l
        = decodeValue d l (pySliceStr record bd.start_pos bd.end_pos) acc) ∧
    (bd.end_pos < (record.length : Int) - 1 → 0 ≤ bd.start_pos →
      bd.start_pos ≤ bd.end_pos →
      (pySliceStr record bd.start_pos bd.end_pos).data
        = (record.data.drop bd.start_pos.toNat).take (bd.end_pos.toNat - bd.start_pos.toNat) ∧
      (pySliceStr record bd.start_pos bd.end_pos).length
        = (bd.end_pos - bd.start_pos).toNat) := by
  refine ⟨fun hge => by simp [parseField, hbd, hge], fun hlt => ?_, fun hlt h0 hse => ?_⟩
  · simp [parseField, hbd, not_le.mpr hlt]
  · have hlen : (record.length : Int) = (record.data.length : Int) := rfl
    have hble : bd.end_pos ≤ (record.data.length : Int) := by
      rw [← hlen]; omega
    refine ⟨?_, ?_⟩
    · show pySlice record.data bd.start_pos bd.end_pos = _
      exact pySlice_eq_drop_take record.data _ _ h0 hse hble
    · show (pySlice record.data bd.start_pos bd.end_pos).length = _
      rw [pySlice_length record.data _ _ h0 hse hble]
      omega

/-- Claim C8, counterexample: with the byte range 0 to 3 and the
four-character record 150 plus newline, the range end 3 equals
len − 1 = 3 and so does not exceed it, yet the field is skipped and
the output mapping stays empty (decoding would have produced the
marker value 50 hours). -/
theorem claim_C8_counterexample :
    ¬ ((3 : Int) > (("150\n" : String).length : Int) - 1) ∧
    lookupS markerDict.bytewise_encoding "B1" = some ⟨0, 3⟩ ∧
    DataDictionary.parse markerDict "150\n" = some [] := by
  refine ⟨by decide, rfl, rfl⟩

/-- Witness for claim C8 (amended): against the range 0 to 3, the
record 150 plus newline is skipped (end = len − 1), while the
five-character record with a trailing space is decoded from exactly
the three extracted bytes. -/
theorem claim_C8_witness :
    parseField markerDict "150\n" [] "B1" = some [] ∧
    parseField markerDict "150 \n" [] "B1"
      = decodeValue markerDict "B1" (pySliceStr "150 \n" 0 3) [] ∧
    (pySliceStr "150 \n" 0 3).length = 3 := by
  have h := claim_C8_amended markerDict "150\n" [] "B1" ⟨0, 3⟩ rfl
  have h2 := claim_C8_amended markerDict "150 \n" [] "B1" ⟨0, 3⟩ rfl
  refine ⟨h.1 (by decide), h2.2.1 (by decide), ?_⟩
  have h3 := (h2.2.2 (by decide) (by decide) (by decide)).2
  simpa using h3

/- ### Claim C7: the breastfeeding marker field -/

/-- Claim C7: a field whose display name contains the phrase
"When child put to breast" and whose in-range substring is a
well-formed integer v ignores declared type, format and null rules:
0 decodes to Immediately, 100 < v < 200 to (v−100) hours,
200 < v < 300 to (v−200) days, and any other value leaves the field
absent from the output (only a diagnostic is printed). -/
theorem claim_C7 (d : DataDictionary) (record : String)
    (acc : List (String × PyVal)) (l name : String) (bd : ByteRange) (v : Int)
    (hbd : lookupS d.bytewise_encoding l = some bd)
    (hlen : bd.end_pos < (record.length : Int) - 1)
    (hname : lookupS d.variable_dict l = some name)
    (hbf : strContains name BF_IDENTIFIER = true)
    (hsp : allSpacesOrStars (pySliceStr record bd.start_pos bd.end_pos) = false)
    (hint : pyIntParse (pySliceStr record bd.start_pos bd.end_pos).data = some v) :
    parseField d record acc l =
      some (if v = 0 then insertS acc name (.str "Immediately")
        else if 100 < v ∧ v < 200 then
          insertS acc name (.str (toString (v - 100) ++ " hours"))
        else if 200 < v ∧ v < 300 then
          insertS acc name (.str (toString (v - 200) ++ " days"))
        else acc) := by
  simp only [parseField, hbd, if_neg (not_le.mpr hlen), decodeValue, hname, hsp,
    Bool.false_eq_true, if_false, hbf, if_true, hint]
  split_ifs <;> rfl

/-- Witness for claim C7: the concrete marker dictionary with the
records 150, 250, 0 and 350 (padded so the range is in bounds):
50 hours, 50 days, Immediately, and an absent field. -/
theorem claim_C7_witness :
    DataDictionary.parse markerDict "150 \n" = some
      [("B1 When child put to breast", .str "50 hours")] ∧
    DataDictionary.parse markerDict "250 \n" = some
      [("B1 When child put to breast", .str "50 days")] ∧
    DataDictionary.parse markerDict "0   \n" = some
      [("B1 When child put to breast", .str "Immediately")] ∧
    DataDictionary.parse markerDict "350 \n" = some [] := by
  have h150 := claim_C7 markerDict "150 \n" [] "B1"
    "B1 When child put to breast" ⟨0, 3⟩ 150 rfl (by decide) rfl (by decide)
    (by decide) (by decide)
  have h250 := claim_C7 markerDict "250 \n" [] "B1"
    "B1 When child put to breast" ⟨0, 3⟩ 250 rfl (by decide) rfl (by decide)
    (by decide) (by decide)
  have h0 := claim_C7 markerDict "0   \n" [] "B1"
    "B1 When child put to breast" ⟨0, 3⟩ 0 rfl (by decide) rfl (by decide)
    (by decide) (by decide)
  have h350 := claim_C7 markerDict "350 \n" [] "B1"
    "B1 When child put to breast" ⟨0, 3⟩ 350 rfl (by decide) rfl (by decide)
    (by decide) (by decide)
  refine ⟨?_, ?_, ?_, ?_⟩
  · simpa [DataDictionary.parse, markerDict, List.foldlM] using h150
  · simpa [DataDictionary.parse, markerDict, List.foldlM] using h250
  · simpa [DataDictionary.parse, markerDict, List.foldlM] using h0
  · simpa [DataDictionary.parse, markerDict, List.foldlM] using h350

/- ### Claim C2: positional-field registration -/

/-- Claim C2 (amended): for a width token that contains a dot — the
digits N, a dot, then an optional digit run P — registerPositionalField
stores the 0-based half-open byte range from p − 1 to p − 1 + N (so
exactly N bytes are extracted at decode time for an in-bounds record),
and declares the type string when the schema line contains a
dollar-digits-dot width (which is the case whenever the token itself is
dollar-prefixed), else float when P is present with value > 0, else
int.  A dotless token N makes add_bytewise_encoding raise instead (see
the counterexample), which is the one correction to the claim. -/
theorem claim_C2_amended (d : DataDictionary) (p : Int) (l : String)
    (ds ps : List Char) (line : String)
    (hp : 1 ≤ p) (hne : ds ≠ []) (hds : ds.all Char.isDigit)
    (hps : ps.all Char.isDigit) :
    ∃ d', registerPositionalField d p l (String.mk (ds ++ '.' :: ps)) line = some d' ∧
      lookupS d'.bytewise_encoding l
        = some ⟨p - 1, p - 1 + (digitsToNat ds : Int)⟩ ∧
      lookupS d'.variable_type l = some
        (if containsDollarNumDot line.data then "string"
         else if ps ≠ [] ∧ 0 < digitsToNat ps then "float" else "int") ∧
      (∀ record : String,
        p - 1 + (digitsToNat ds : Int) < (record.length : Int) - 1 →
        (pySliceStr record (p - 1) (p - 1 + (digitsToNat ds : Int))).length
          = digitsToNat ds) := by
  have hdata : (String.mk (ds ++ '.' :: ps)).data = ds ++ '.' :: ps := rfl
  have hend : p + (digitsToNat ds : Int) - 1 = p - 1 + (digitsToNat ds : Int) := by ring
  have hty : (match matchNumDotNum (ds ++ '.' :: ps) with
      | some q => if 0 < q then "float" else "int"
      | Option.none => "int")
      = (if ps ≠ [] ∧ 0 < digitsToNat ps then "float" else "int") := by
    rw [matchNumDotNum_spec ds ps hne hds hps]
    by_cases hpse : ps = []
    · simp [hpse]
    · by_cases hq : 0 < digitsToNat ps
      · simp [hpse, hq]
      · simp [hpse, hq]
  have hslice : ∀ record : String,
      p - 1 + (digitsToNat ds : Int) < (record.length : Int) - 1 →
      (pySliceStr record (p - 1) (p - 1 + (digitsToNat ds : Int))).length
        = digitsToNat ds := by
    intro record hr
    have h0 : (0 : Int) ≤ p - 1 := by omega
    have hse : p - 1 ≤ p - 1 + (digitsToNat ds : Int) := by
      have : (0 : Int) ≤ (digitsToNat ds : Int) := Int.ofNat_nonneg _
      omega
    have hble : p - 1 + (digitsToNat ds : Int) ≤ (record.data.length : Int) := by
      have : (record.length : Int) = (record.data.length : Int) := rfl
      omega
    show (pySlice record.data (p - 1) (p - 1 + (digitsToNat ds : Int))).length = _
    rw [pySlice_length record.data _ _ h0 hse hble]
    omega
  unfold registerPositionalField DataDictionary.add_bytewise_encoding
  rw [hdata, searchNumDot_spec ds ps hne hds]
  simp only [hty, hend]
  by_cases hdollar : containsDollarNumDot line.data = true
  · refine ⟨_, by rw [if_pos hdollar], ?_, ?_, hslice⟩
    · simpa using lookupS_insertS_self _ l _
    · simp [hdollar, lookupS_insertS_self]
  · refine ⟨_, by rw [if_neg hdollar], ?_, ?_, hslice⟩
    · simpa using lookupS_insertS_self _ l _
    · simp only [Bool.not_eq_true] at hdollar
      simp [hdollar, lookupS_insertS_self]

/-- Claim C2, counterexample: the dotless width token 4 (the claim's
plain-N form) makes add_bytewise_encoding fail — re.search of
digits-then-dot finds nothing and .group(1) raises — so no byte range
is stored, rather than the claimed [p−1, p−1+4). -/
theorem claim_C2_counterexample :
    DataDictionary.add_bytewise_encoding markerDict 164 "Q831" "4" = Option.none ∧
    registerPositionalField markerDict 164 "Q831" "4" "@164  Q831  4" = Option.none := by
  exact ⟨rfl, rfl⟩

/-- Witness for claim C2 (amended): registering the token 12.5 at
position 10 stores the range 9 to 21 with type float, and with a
dollar-marked line the type becomes string. -/
theorem claim_C2_witness :
    (∃ d', registerPositionalField markerDict 10 "Q1"
        (String.mk ("12".data ++ '.' :: "5".data)) "@10  Q1  12.5" = some d' ∧
      lookupS d'.bytewise_encoding "Q1" = some ⟨9, 21⟩ ∧
      lookupS d'.variable_type "Q1" = some "float") ∧
    (∃ d', registerPositionalField markerDict 10 "Q1"
        (String.mk ("4".data ++ '.' :: "0".data)) "@10  Q1  $4.0" = some d' ∧
      lookupS d'.variable_type "Q1" = some "string") := by
  constructor
  · obtain ⟨d', h1, h2, h3, h4⟩ := claim_C2_amended markerDict 10 "Q1"
      "12".data "5".data "@10  Q1  12.5" (by decide) (by decide) (by decide) (by decide)
    refine ⟨d', h1, by simpa using h2, ?_⟩
    rw [h3]
    decide
  · obtain ⟨d', h1, h2, h3, h4⟩ := claim_C2_amended markerDict 10 "Q1"
      "4".data "0".data "@10  Q1  $4.0" (by decide) (by decide) (by decide) (by decide)
    refine ⟨d', h1, ?_⟩
    rw [h3]
    decide

/- ### Claim C9: multi-select decoding of string fields -/

/-- Claim C9: for a string-typed field with a value dictionary (string
keys and string display values), when the raw untrimmed substring
matches no null-rule key and no dictionary key exactly, decode emits
the comma-space-joined display values of every dictionary key occurring
inside the raw substring, in dictionary iteration order. -/
theorem claim_C9 (d : DataDictionary) (record : String)
    (acc : List (String × PyVal)) (l name f : String) (bd : ByteRange)
    (es : List (PyVal × PyVal))
    (hbd : lookupS d.bytewise_encoding l = some bd)
    (hlen : bd.end_pos < (record.length : Int) - 1)
    (hname : lookupS d.variable_dict l = some name)
    (hsp : allSpacesOrStars (pySliceStr record bd.start_pos bd.end_pos) = false)
    (hbf : strContains name BF_IDENTIFIER = false)
    (hty : lookupS d.variable_type l = some "string")
    (hnull : (lookupS d.null_encoding l).bind
        (fun ne => pyLookup ne (.str (pySliceStr record bd.start_pos bd.end_pos)))
        = Option.none)
    (hf : lookupS d.variable_format_dict l = some f)
    (hes : lookupS d.value_dict f = some es)
    (hnokey : pyLookup es (.str (pySliceStr record bd.start_pos bd.end_pos))
        = Option.none)
    (hkeys : ∀ kv ∈ es, (∃ ks, kv.1 = PyVal.str ks) ∧ ∃ dsp, kv.2 = PyVal.str dsp) :
    parseField d record acc l = some (insertS acc name (.str (String.intercalate ", "
      (matchedDisplays (pySliceStr record bd.start_pos bd.end_pos) es)))) := by
  have hms := multiSelect_spec (pySliceStr record bd.start_pos bd.end_pos) es hkeys
  simp [parseField, hbd, not_le.mpr hlen, decodeValue, hname, hsp, hbf, hty,
    genericTail, hnull, hf, hes, hnokey, hms]

/-- Witness for claim C9: with keys A, B, C mapped to Alpha, Beta,
Gamma, the raw value AC decodes to the string Alpha, Gamma. -/
theorem claim_C9_witness :
    DataDictionary.parse multiDict "AC \n"
      = some [("QM methods", .str "Alpha, Gamma")] := by
  have h := claim_C9 multiDict "AC \n" [] "QM" "QM methods" "FM" ⟨0, 2⟩
    [(.str "A", .str "Alpha"), (.str "B", .str "Beta"), (.str "C", .str "Gamma")]
    rfl (by decide) rfl (by decide) (by decide) rfl (by decide) rfl rfl (by decide)
    (by
      intro kv hm
      simp only [List.mem_cons, List.not_mem_nil, or_false] at hm
      rcases hm with h | h | h <;> subst h <;> exact ⟨⟨_, rfl⟩, ⟨_, rfl⟩⟩)
  have hmd : matchedDisplays (pySliceStr "AC \n" 0 2)
      [(.str "A", .str "Alpha"), (.str "B", .str "Beta"), (.str "C", .str "Gamma")]
      = ["Alpha", "Gamma"] := by decide
  rw [hmd] at h
  simpa [DataDictionary.parse, multiDict, List.foldlM] using h

/- ### Claim C3: float decoding with 0.001 tolerance -/

/-- The value the claim predicts for a parsed float v: the replacement
of the first null-rule key within FLOAT_ERROR of v; else, for a field
with a format association, the text of the first value-dictionary
display whose key is within FLOAT_ERROR; else the raw numeric value
unchanged. -/
def floatDecodeSpec (d : DataDictionary) (l : String) (v : ℚ) : PyVal :=
  match ((lookupS d.null_encoding l).getD []).find? (tolMatch v) with
  | some kv => kv.2
  | Option.none =>
    match lookupS d.variable_format_dict l with
    | Option.none => .float v
    | some f =>
      match ((lookupS d.value_dict f).getD []).find? (tolMatch v) with
      | some kv => .str (pyStr kv.2)
      | Option.none => .float v

/-- Claim C3: for a float-typed field whose substring parses to v, the
first null-rule key within 0.001 of v yields that rule's replacement;
otherwise the first value-dictionary key of the field's format within
0.001 yields its display value converted to text; otherwise the raw
numeric value is emitted unchanged.  Stated for finalized dictionaries
(every format association has a dictionary) with numeric keys. -/
theorem claim_C3 (d : DataDictionary) (record : String)
    (acc : List (String × PyVal)) (l name : String) (bd : ByteRange) (v : ℚ)
    (hbd : lookupS d.bytewise_encoding l = some bd)
    (hlen : bd.end_pos < (record.length : Int) - 1)
    (hname : lookupS d.variable_dict l = some name)
    (hsp : allSpacesOrStars (pySliceStr record bd.start_pos bd.end_pos) = false)
    (hbf : strContains name BF_IDENTIFIER = false)
    (hty : lookupS d.variable_type l = some "float")
    (hflo : pyFloatParse (pySliceStr record bd.start_pos bd.end_pos).data = some v)
    (hnum : ∀ kv ∈ (lookupS d.null_encoding l).getD [], (pyNum kv.1).isSome)
    (hfin : ∀ f, lookupS d.variable_format_dict l = some f →
        ∃ es, lookupS d.value_dict f = some es ∧ ∀ kv ∈ es, (pyNum kv.1).isSome) :
    parseField d record acc l
      = some (insertS acc name (floatDecodeSpec d l v)) := by
  have hcore : floatTail d l name v acc
      = some (insertS acc name (floatDecodeSpec d l v)) := by
    rcases hnulll : lookupS d.null_encoding l with _ | ne
    · rcases hvf : lookupS d.variable_format_dict l with _ | f
      · simp [floatTail, floatDecodeSpec, hnulll, hvf]
      · obtain ⟨es, hes, hkeys⟩ := hfin f hvf
        have hscan := floatTolScan_eq_find v es hkeys
        rcases hfind : es.find? (tolMatch v) with _ | kv
        · simp [floatTail, floatDecodeSpec, hnulll, hvf, hes, hscan, hfind]
        · simp [floatTail, floatDecodeSpec, hnulll, hvf, hes, hscan, hfind]
    · have hscan := floatTolScan_eq_find v ne (by simpa [hnulll] using hnum)
      rcases hfind : ne.find? (tolMatch v) with _ | kv
      · rcases hvf : lookupS d.variable_format_dict l with _ | f
        · simp [floatTail, floatDecodeSpec, hnulll, hscan, hfind, hvf]
        · obtain ⟨es, hes, hkeys⟩ := hfin f hvf
          have hscan2 := floatTolScan_eq_find v es hkeys
          rcases hfind2 : es.find? (tolMatch v) with _ | kv2
          · simp [floatTail, floatDecodeSpec, hnulll, hscan, hfind, hvf, hes,
              hscan2, hfind2]
          · simp [floatTail, floatDecodeSpec, hnulll, hscan, hfind, hvf, hes,
              hscan2, hfind2]
      · simp [floatTail, floatDecodeSpec, hnulll, hscan, hfind]
  simp only [parseField, hbd, if_neg (not_le.mpr hlen), decodeValue, hname, hsp,
    Bool.false_eq_true, if_false, hbf, hty, hflo]
  simpa using hcore

/-- Witness for claim C3: against a null rule keyed at 9.0 mapping to
None, the parsed value 9.0005 (within 0.0005) decodes to None, while
9.002 (off by 0.002) falls through and is emitted unchanged. -/
theorem claim_C3_witness :
    DataDictionary.parse floatNullDict "9.0005  \n" = some [("Q5 months", .null)] ∧
    DataDictionary.parse floatNullDict "9.002   \n"
      = some [("Q5 months", .float ((4501 : ℚ) / 500))] := by
  have h1 := claim_C3 floatNullDict "9.0005  \n" [] "Q5" "Q5 months" ⟨0, 6⟩
    ((18001 : ℚ) / 2000) rfl (by decide) rfl (by decide) (by decide) rfl
    (by decide) (by decide)
    (by intro f hf; simp [floatNullDict, lookupS] at hf)
  have h2 := claim_C3 floatNullDict "9.002   \n" [] "Q5" "Q5 months" ⟨0, 6⟩
    ((4501 : ℚ) / 500) rfl (by decide) rfl (by decide) (by decide) rfl
    (by decide) (by decide)
    (by intro f hf; simp [floatNullDict, lookupS] at hf)
  constructor
  · have hm : floatDecodeSpec floatNullDict "Q5" ((18001 : ℚ) / 2000) = .null := by
      decide
    rw [hm] at h1
    simpa [DataDictionary.parse, floatNullDict, List.foldlM] using h1
  · have hm : floatDecodeSpec floatNullDict "Q5" ((4501 : ℚ) / 500)
        = .float ((4501 : ℚ) / 500) := by decide
    rw [hm] at h2
    simpa [DataDictionary.parse, floatNullDict, List.foldlM] using h2

/- ### Claim C5: Yes/No dictionaries become booleans, once per format -/

/-- A dictionary in which two labels share a format whose two-entry
value dictionary maps some keys to the display strings Yes and No;
everything else is arbitrary. -/
def yesNoInput (nm : String) (vdict : List (String × String)) (vseen : List String)
    (vtype : List (String × String)) (benc : List (String × ByteRange))
    (nenc : List (String × List (PyVal × PyVal)))
    (l1 l2 f : String) (k1 k2 : PyVal) : DataDictionary :=
  { name := nm, variable_dict := vdict,
    variable_format_dict := [(l1, f), (l2, f)], vbls_seen := vseen,
    variable_type := vtype, bytewise_encoding := benc,
    null_encoding := nenc,
    value_dict := [(f, [(k1, .str "Yes"), (k2, .str "No")])] }

/-- Claim C5: a two-entry value dictionary whose display values are
exactly Yes and No is converted to booleans true/false exactly once —
the second field sharing the format id sees the already-boolean
dictionary and triggers no reconversion (a reconversion would have
turned true into false) — and afterwards an int-typed field whose
parsed value equals the Yes key decodes to boolean true, the No key to
boolean false. -/
theorem claim_C5 (nm : String) (vdict : List (String × String)) (vseen : List String)
    (vtype : List (String × String)) (benc : List (String × ByteRange))
    (nenc : List (String × List (PyVal × PyVal)))
    (l1 l2 f : String) (k1 k2 : PyVal) (h12 : l1 ≠ l2) :
    DataDictionary.clean_formats (yesNoInput nm vdict vseen vtype benc nenc l1 l2 f k1 k2)
      = some { yesNoInput nm vdict vseen vtype benc nenc l1 l2 f k1 k2 with
          value_dict := [(f, [(k1, .bool true), (k2, .bool false)])] } ∧
    (∀ (d : DataDictionary) (record : String) (acc : List (String × PyVal))
      (l name fm : String) (bd : ByteRange) (n : Int) (ka kb : PyVal),
      lookupS d.bytewise_encoding l = some bd →
      bd.end_pos < (record.length : Int) - 1 →
      lookupS d.variable_dict l = some name →
      allSpacesOrStars (pySliceStr record bd.start_pos bd.end_pos) = false →
      strContains name BF_IDENTIFIER = false →
      lookupS d.variable_type l = some "int" →
      pyIntParse (pySliceStr record bd.start_pos bd.end_pos).data = some n →
      (lookupS d.null_encoding l).bind (fun ne => pyLookup ne (.int n)) = Option.none →
      lookupS d.variable_format_dict l = some fm →
      lookupS d.value_dict fm = some [(ka, .bool true), (kb, .bool false)] →
      ((pyEq ka (.int n) = true →
        parseField d record acc l = some (insertS acc name (.bool true))) ∧
       (pyEq ka (.int n) = false → pyEq kb (.int n) = true →
        parseField d record acc l = some (insertS acc name (.bool false))))) := by
  constructor
  · simp [DataDictionary.clean_formats, yesNoInput, List.foldlM, cleanStep,
      lookupS, h12, Ne.symm h12, yesNoValues, pyEq, pyNum, toBoolYesNo,
      insertS, eraseS]
  · intro d record acc l name fm bd n ka kb hbd hlen hname hsp hbf hty hint
      hnull hf hes
    constructor
    · intro hka
      simp [parseField, hbd, not_le.mpr hlen, decodeValue, hname, hsp, hbf, hty,
        hint, genericTail, hnull, hf, hes, pyLookup, hka]
    · intro hka hkb
      simp [parseField, hbd, not_le.mpr hlen, decodeValue, hname, hsp, hbf, hty,
        hint, genericTail, hnull, hf, hes, pyLookup, hka, hkb]

/-- Witness for claim C5: Scenario B — after cleanup of format F1 with
dictionary 1 mapped to Yes and 2 mapped to No on the int field Q2, raw
1 decodes to boolean true and raw 2 to boolean false. -/
theorem claim_C5_witness :
    (DataDictionary.clean_formats yesNoDict).map DataDictionary.value_dict
      = some [("F1", [(.int 1, .bool true), (.int 2, .bool false)])] ∧
    (DataDictionary.clean_formats yesNoDict).bind
      (fun d => DataDictionary.parse d "1 \n")
      = some [("Q2 consent", .bool true)] ∧
    (DataDictionary.clean_formats yesNoDict).bind
      (fun d => DataDictionary.parse d "2 \n")
      = some [("Q2 consent", .bool false)] := by
  have hclean := (claim_C5 "SAMPLE" [("Q2", "Q2 consent")] [] [("Q2", "int")]
    [("Q2", ⟨0, 1⟩)] [] "Q2" "X2" "F1" (.int 1) (.int 2) (by decide)).1
  have hdec := (claim_C5 "SAMPLE" [] [] [] [] [] "Q2" "X2" "F1"
    (.int 1) (.int 2) (by decide)).2
  have hd : DataDictionary.clean_formats yesNoDict
      = some { yesNoDict with
          value_dict := [("F1", [(.int 1, .bool true), (.int 2, .bool false)])] } := by
    decide
  refine ⟨by rw [hd]; rfl, ?_, ?_⟩
  · rw [hd]
    have h1 := (hdec { yesNoDict with
        value_dict := [("F1", [(.int 1, .bool true), (.int 2, .bool false)])] }
      "1 \n" [] "Q2" "Q2 consent" "F1" ⟨0, 1⟩ 1 (.int 1) (.int 2)
      rfl (by decide) rfl (by decide) (by decide) rfl (by decide) (by decide)
      rfl rfl).1 (by decide)
    simpa [DataDictionary.parse, yesNoDict, List.foldlM] using h1
  · rw [hd]
    have h2 := (hdec { yesNoDict with
        value_dict := [("F1", [(.int 1, .bool true), (.int 2, .bool false)])] }
      "2 \n" [] "Q2" "Q2 consent" "F1" ⟨0, 1⟩ 2 (.int 1) (.int 2)
      rfl (by decide) rfl (by decide) (by decide) rfl (by decide) (by decide)
      rfl rfl).2 (by decide) (by decide)
    simpa [DataDictionary.parse, yesNoDict, List.foldlM] using h2

/- ### Claim C4: single-entry dictionaries as null markers -/

/-- A dictionary in which two labels share a format whose value
dictionary has a single entry; everything else is arbitrary. -/
def singleEntryInput (nm : String) (vdict : List (String × String))
    (vseen : List String) (vtype : List (String × String))
    (benc : List (String × ByteRange)) (nenc : List (String × List (PyVal × PyVal)))
    (l1 l2 f : String) (k : PyVal) (s : String) : DataDictionary :=
  { name := nm, variable_dict := vdict,
    variable_format_dict := [(l1, f), (l2, f)], vbls_seen := vseen,
    variable_type := vtype, bytewise_encoding := benc,
    null_encoding := nenc,
    value_dict := [(f, [(k, .str s)])] }

/-- The dictionary clean_formats produces from singleEntryInput in the
null-marker case: dictionary and format associations gone, and the
null rule (key, replacement by the first field's type) recorded on
both labels. -/
def singleEntryOutput (nm : String) (vdict : List (String × String))
    (vseen : List String) (vtype : List (String × String))
    (benc : List (String × ByteRange)) (nenc : List (String × List (PyVal × PyVal)))
    (l1 l2 : String) (k : PyVal) (s t1 : String) : DataDictionary :=
  { name := nm, variable_dict := vdict, variable_format_dict := [],
    vbls_seen := vseen, variable_type := vtype, bytewise_encoding := benc,
    null_encoding := (insertS (insertS nenc l1
      (pyInsert ((lookupS nenc l1).getD []) k (nullReplacement t1 (.str s)))) l2
      (pyInsert ((lookupS nenc l2).getD []) k (nullReplacement t1 (.str s)))),
    value_dict := [] }

/-- Claim C4 (amended): when the single entry's display value is one of
the six null-marker names, clean_formats removes the dictionary and the
format associations and records the entry's key as a null rule on every
field sharing the id — the replacement being empty string or None by
the first field's declared type, overridden to 999999 for Flagged cases
and 0 for No births, and propagated unchanged to the later fields —
and an int-typed field whose parsed value then matches a null-rule key
decodes to the recorded replacement. -/
theorem claim_C4_amended (nm : String) (vdict : List (String × String))
    (vseen : List String) (vtype : List (String × String))
    (benc : List (String × ByteRange)) (nenc : List (String × List (PyVal × PyVal)))
    (l1 l2 f : String) (k : PyVal) (s t1 : String) (h12 : l1 ≠ l2)
    (hs : s ∈ sentinelNames) (ht1 : lookupS vtype l1 = some t1) :
    (∃ d', DataDictionary.clean_formats
        (singleEntryInput nm vdict vseen vtype benc nenc l1 l2 f k s) = some d' ∧
      d'.value_dict = [] ∧
      d'.variable_format_dict = [] ∧
      lookupS d'.null_encoding l1
        = some (pyInsert ((lookupS nenc l1).getD []) k (nullReplacement t1 (.str s))) ∧
      lookupS d'.null_encoding l2
        = some (pyInsert ((lookupS nenc l2).getD []) k (nullReplacement t1 (.str s)))) ∧
    (s = "Flagged cases" → nullReplacement t1 (.str s) = .int 999999) ∧
    (s = "No births" → nullReplacement t1 (.str s) = .int 0) ∧
    (s ≠ "Flagged cases" → s ≠ "No births" →
      nullReplacement t1 (.str s) = (if t1 = "string" then .str "" else .null)) ∧
    (∀ (d : DataDictionary) (record : String) (acc : List (String × PyVal))
      (l name : String) (bd : ByteRange) (n : Int) (repl : PyVal),
      lookupS d.bytewise_encoding l = some bd →
      bd.end_pos < (record.length : Int) - 1 →
      lookupS d.variable_dict l = some name →
      allSpacesOrStars (pySliceStr record bd.start_pos bd.end_pos) = false →
      strContains name BF_IDENTIFIER = false →
      lookupS d.variable_type l = some "int" →
      pyIntParse (pySliceStr record bd.start_pos bd.end_pos).data = some n →
      (lookupS d.null_encoding l).bind (fun ne => pyLookup ne (.int n)) = some repl →
      parseField d record acc l = some (insertS acc name repl)) := by
  have hsd : isSentinelDisp (.str s) = true := by
    simp only [isSentinelDisp, List.any_eq_true]
    exact ⟨s, hs, by simp [pyEq, pyNum]⟩
  refine ⟨?_, ?_, ?_, ?_, ?_⟩
  · refine ⟨singleEntryOutput nm vdict vseen vtype benc nenc l1 l2 k s t1,
      ?_, rfl, rfl, ?_, ?_⟩
    · simp [DataDictionary.clean_formats, singleEntryInput, singleEntryOutput,
        List.foldlM, cleanStep, lookupS, h12, Ne.symm h12, hsd, ht1, insertS, eraseS,
        fun v => lookupS_insertS_ne nenc l1 l2 v (Ne.symm h12)]
    · show lookupS (insertS _ l2 _) l1 = _
      rw [lookupS_insertS_ne _ l2 l1 _ h12, lookupS_insertS_self]
    · show lookupS (insertS _ l2 _) l2 = _
      rw [lookupS_insertS_self]
  · intro hfl
    subst hfl
    simp [nullReplacement, pyEq, pyNum, FLAGGED_CASES]
  · intro hnb
    subst hnb
    simp [nullReplacement, pyEq, pyNum]
  · intro hfl hnb
    simp [nullReplacement, pyEq, pyNum, hfl, hnb]
  · intro d record acc l name bd n repl hbd hlen hname hsp hbf hty hint hnull
    simp [parseField, hbd, not_le.mpr hlen, decodeValue, hname, hsp, hbf, hty,
      hint, genericTail, hnull]

/-- Claim C4, counterexample: (1) a single-entry dictionary whose
display value Other is not one of the six null-marker names is left
completely untouched by clean_formats — no removal, no null rule —
refuting the claim's "for every format id whose value dictionary has
exactly one entry"; (2) Scenario C itself fails on the string side:
after cleanup of the single entry 9 mapped to Don't know on the
string-typed field Q9 the dictionary is removed and a null rule keyed
by the integer 9 is installed, but the raw substring "9" (a string)
never equals that integer key, so it decodes to the string 9, not to
the claimed empty string. -/
theorem claim_C4_counterexample :
    DataDictionary.clean_formats otherSingleDict = some otherSingleDict ∧
    (DataDictionary.clean_formats scenarioCDict).map DataDictionary.value_dict
      = some [] ∧
    (DataDictionary.clean_formats scenarioCDict).map DataDictionary.null_encoding
      = some [("Q9", [(.int 9, .str "")])] ∧
    (DataDictionary.clean_formats scenarioCDict).bind
      (fun d => DataDictionary.parse d "9 \n")
      = some [("Q9 answer", .str "9")] := by
  exact ⟨by decide, by decide, by decide, by decide⟩

/-- The result of cleaning the C4 witness configuration: format FD
with single entry 7 mapped to Don't know, shared by the int fields QA
and QB. -/
def c4WitnessDict : DataDictionary :=
  { name := "S", variable_dict := [("QA", "QA name")],
    variable_format_dict := [], vbls_seen := [],
    variable_type := [("QA", "int"), ("QB", "int")],
    bytewise_encoding := [("QA", ⟨0, 1⟩)],
    null_encoding := [("QA", [(.int 7, .null)]), ("QB", [(.int 7, .null)])],
    value_dict := [] }

/-- Witness for claim C4 (amended): after cleanup both fields carry
the null rule 7 mapped to None, the dictionary is gone, and a parsed
7 decodes to None. -/
theorem claim_C4_witness :
    DataDictionary.clean_formats
        (singleEntryInput "S" [("QA", "QA name")] [] [("QA", "int"), ("QB", "int")]
          [("QA", ⟨0, 1⟩)] [] "QA" "QB" "FD" (.int 7) "Don't know")
      = some c4WitnessDict ∧
    lookupS c4WitnessDict.null_encoding "QA" = some [(.int 7, .null)] ∧
    lookupS c4WitnessDict.null_encoding "QB" = some [(.int 7, .null)] ∧
    c4WitnessDict.value_dict = [] ∧
    DataDictionary.parse c4WitnessDict "7 \n" = some [("QA name", .null)] := by
  obtain ⟨⟨d', hclean, hvd, hvfd, hn1, hn2⟩, _, _, _, hdec⟩ :=
    claim_C4_amended "S" [("QA", "QA name")] [] [("QA", "int"), ("QB", "int")]
      [("QA", ⟨0, 1⟩)] [] "QA" "QB" "FD" (.int 7) "Don't know" "int"
      (by decide) (by decide) (by decide)
  have hconc : DataDictionary.clean_formats
      (singleEntryInput "S" [("QA", "QA name")] [] [("QA", "int"), ("QB", "int")]
        [("QA", ⟨0, 1⟩)] [] "QA" "QB" "FD" (.int 7) "Don't know")
      = some c4WitnessDict := by decide
  have h := hdec c4WitnessDict "7 \n" [] "QA" "QA name" ⟨0, 1⟩ 7 .null
    rfl (by decide) rfl (by decide) (by decide) rfl (by decide) rfl
  exact ⟨hconc, rfl, rfl, rfl,
    by simpa [DataDictionary.parse, c4WitnessDict, List.foldlM] using h⟩

/- ### Claim C6: clean_formats is idempotent -/

/-- A value-dictionary configuration on which the clean_formats branch
bodies do nothing: not a single entry with a null-marker display value,
and not a two-entry Yes/No pair. -/
def stableEntries (es : List (PyVal × PyVal)) : Prop :=
  (∀ kv : PyVal × PyVal, es = [kv] → isSentinelDisp kv.2 = false) ∧
  ¬(es.length = 2 ∧ yesNoValues es = true)

/-- The invariant a successful cleaning pass establishes: every
retained format association has a value dictionary, and that
dictionary is in a stable configuration. -/
def Stable (d : DataDictionary) : Prop :=
  ∀ l f, lookupS d.variable_format_dict l = some f →
    ∃ es, lookupS d.value_dict f = some es ∧ stableEntries es

theorem pyEq_bool_str (b : Bool) (t : String) :
    pyEq (.bool b) (.str t) = false := by
  cases b <;> rfl

theorem yesNoValues_toBool (es : List (PyVal × PyVal)) :
    yesNoValues (toBoolYesNo es) = false := by
  have h : (toBoolYesNo es).any (fun kv => pyEq kv.2 (.str "Yes")) = false := by
    simp only [toBoolYesNo, List.any_map, List.any_eq_false]
    intro kv hkv
    simp only [Function.comp]
    by_cases hy : pyEq kv.2 (.str "Yes") = true
    · simp [hy, pyEq_bool_str]
    · simp only [Bool.not_eq_true] at hy
      simp [hy, pyEq_bool_str]
  simp [yesNoValues, h]

theorem stableEntries_toBool (es : List (PyVal × PyVal)) :
    stableEntries (toBoolYesNo es) := by
  constructor
  · intro kv hkv
    have : kv ∈ toBoolYesNo es := by simp [hkv]
    simp only [toBoolYesNo, List.mem_map] at this
    obtain ⟨kv0, _, hmap⟩ := this
    by_cases hy : pyEq kv0.2 (.str "Yes") = true
    · rw [← hmap]
      simp only [hy, if_true]
      decide
    · simp only [Bool.not_eq_true] at hy
      rw [← hmap]
      simp only [hy, Bool.false_eq_true, if_false]
      decide
  · rintro ⟨_, hyn⟩
    rw [yesNoValues_toBool] at hyn
    exact Bool.false_ne_true hyn

/-- On a stable dictionary every cleaning step only updates
formats_seen. -/
theorem cleanStep_of_stable (st : CleanSt) (l : String) (h : Stable st.d)
    (hl : (lookupS st.d.variable_format_dict l).isSome) :
    ∃ seen' : List String, cleanStep st l = some { st with seen := seen' } := by
  obtain ⟨f, hf⟩ := Option.isSome_iff_exists.mp hl
  obtain ⟨es, hes, hst⟩ := h l f hf
  refine ⟨if f ∈ st.seen then st.seen else f :: st.seen, ?_⟩
  by_cases hc1 : es.length = 1 ∧ f ∉ st.seen
  · obtain ⟨kv, hkv⟩ := List.length_eq_one.mp hc1.1
    obtain ⟨value, disp⟩ := kv
    have hsd : isSentinelDisp disp = false := hst.1 (value, disp) hkv
    subst hkv
    simp [cleanStep, hf, hes, hc1, hsd]
  · by_cases hc2 : es.length = 2 ∧ yesNoValues es = true
    · exact absurd hc2 hst.2
    · rcases es with _ | ⟨⟨value, disp⟩, tail⟩
      · simp only [cleanStep, hf, hes]
        rw [if_neg hc1, if_neg hc2]
        simp [hes]
      · simp only [cleanStep, hf, hes]
        rw [if_neg hc1, if_neg hc2]
        simp [hes]

/-- On a stable dictionary the cleaning fold succeeds and leaves the
dictionary untouched. -/
theorem cleanFold_of_stable (d : DataDictionary) (h : Stable d) :
    ∀ (labels : List String) (st : CleanSt), st.d = d →
      (∀ l ∈ labels, (lookupS d.variable_format_dict l).isSome) →
      ∃ st', List.foldlM cleanStep st labels = some st' ∧ st'.d = d := by
  intro labels
  induction labels with
  | nil =>
      intro st hst _
      exact ⟨st, rfl, hst⟩
  | cons l rest ih =>
      intro st hst hl
      obtain ⟨seen', hstep⟩ := cleanStep_of_stable st l (by rw [hst]; exact h)
        (by rw [hst]; exact hl l (List.mem_cons_self _ _))
      obtain ⟨st', hfold, hd⟩ := ih { st with seen := seen' } hst
        (fun x hx => hl x (List.mem_cons_of_mem _ hx))
      exact ⟨st', by simpa [List.foldlM, hstep] using hfold, hd⟩

/-- A stable dictionary is a fixed point of clean_formats. -/
theorem clean_formats_of_stable (d : DataDictionary) (h : Stable d) :
    DataDictionary.clean_formats d = some d := by
  obtain ⟨st', hfold, hd⟩ := cleanFold_of_stable d h
    (d.variable_format_dict.map Prod.fst)
    { erased := [], seen := [], d := d } rfl
    (fun l hl => lookupS_isSome_of_mem_keys _ l hl)
  simp [DataDictionary.clean_formats, hfold, hd]

/-- Invariant A of the cleaning fold: every format already marked seen
whose dictionary is still present is in a stable configuration. -/
def InvA (st : CleanSt) : Prop :=
  ∀ f ∈ st.seen, ∀ es, lookupS st.d.value_dict f = some es → stableEntries es

/-- Invariant B of the cleaning fold: every retained format
association belongs to a label still to be processed, or its format is
seen and its dictionary present. -/
def InvB (st : CleanSt) (rem : List String) : Prop :=
  ∀ l f, lookupS st.d.variable_format_dict l = some f →
    l ∈ rem ∨ (f ∈ st.seen ∧ (lookupS st.d.value_dict f).isSome)

theorem lookupS_eraseS_some {β : Type} (as : List (String × β)) (k k' : String)
    (v : β) (h : lookupS (eraseS as k) k' = some v) :
    k' ≠ k ∧ lookupS as k' = some v := by
  rw [lookupS_eraseS] at h
  by_cases hk : k' = k
  · simp [hk] at h
  · exact ⟨hk, by simpa [hk] using h⟩

theorem cleanStep_preserves (st st' : CleanSt) (l : String) (rem : List String)
    (hstep : cleanStep st l = some st') (hA : InvA st) (hB : InvB st (l :: rem)) :
    InvA st' ∧ InvB st' rem := by
  rcases hvf : lookupS st.d.variable_format_dict l with _ | f
  · simp [cleanStep, hvf] at hstep
  rcases hvd : lookupS st.d.value_dict f with _ | es
  · -- the format has no dictionary: the association is dropped (with
    -- possible propagation of an erased format's null rules)
    have hshape : ∃ ne', st' = { st with d := { st.d with
        variable_format_dict := (eraseS st.d.variable_format_dict l),
        null_encoding := ne' } } := by
      rcases her : lookupS st.erased f with _ | entries
      · simp only [cleanStep, hvf, hvd, her, Option.some.injEq] at hstep
        exact ⟨st.d.null_encoding, hstep.symm⟩
      · simp only [cleanStep, hvf, hvd, her, Option.some.injEq] at hstep
        exact ⟨_, hstep.symm⟩
    obtain ⟨ne', hst'⟩ := hshape
    subst hst'
    constructor
    · intro f' hf' es' hes'
      exact hA f' hf' es' hes'
    · intro l' f' hl'
      have h2 := lookupS_eraseS_some st.d.variable_format_dict l l' f' hl'
      rcases hB l' f' h2.2 with hmem | ⟨hseen, hsome⟩
      · rcases List.mem_cons.mp hmem with rfl | hmem2
        · exact absurd rfl h2.1
        · exact Or.inl hmem2
      · exact Or.inr ⟨hseen, hsome⟩
  by_cases hc1 : es.length = 1 ∧ f ∉ st.seen
  · obtain ⟨kv, hkv⟩ := List.length_eq_one.mp hc1.1
    obtain ⟨value, disp⟩ := kv
    subst hkv
    by_cases hsd : isSentinelDisp disp = true
    · -- single sentinel entry, not yet seen: erased and turned into a
      -- null rule; the association is dropped
      rcases hty : lookupS st.d.variable_type l with _ | ty
      · simp [cleanStep, hvf, hvd, hc1.2, hsd, hty] at hstep
      have hshape : st' = {
          erased := (insertS st.erased f [(value, nullReplacement ty disp)]),
          seen := f :: st.seen,
          d := { st.d with
            variable_format_dict := (eraseS st.d.variable_format_dict l),
            null_encoding := (insertS st.d.null_encoding l
              (pyInsert ((lookupS st.d.null_encoding l).getD []) value
                (nullReplacement ty disp))),
            value_dict := (eraseS st.d.value_dict f) } } := by
        simp [cleanStep, hvf, hvd, hty, hsd, hc1.2, lookupS_eraseS] at hstep
        exact hstep.symm
      subst hshape
      constructor
      · intro f' hf' es' hes'
        have hf2 : f' ∈ f :: st.seen := hf'
        have hes2 : lookupS (eraseS st.d.value_dict f) f' = some es' := hes'
        have h2 := lookupS_eraseS_some st.d.value_dict f f' es' hes2
        rcases List.mem_cons.mp hf2 with rfl | hf3
        · exact absurd rfl h2.1
        · exact hA f' hf3 es' h2.2
      · intro l' f' hl'
        have h2 := lookupS_eraseS_some st.d.variable_format_dict l l' f' hl'
        rcases hB l' f' h2.2 with hmem | ⟨hseen, hsome⟩
        · rcases List.mem_cons.mp hmem with rfl | hmem2
          · exact absurd rfl h2.1
          · exact Or.inl hmem2
        · refine Or.inr ⟨List.mem_cons_of_mem _ hseen, ?_⟩
          have hne : f' ≠ f := fun hh => hc1.2 (hh ▸ hseen)
          show (lookupS (eraseS st.d.value_dict f) f').isSome
          rw [lookupS_eraseS, if_neg hne]
          exact hsome
    · -- single entry with a non-marker display: nothing changes but
      -- formats_seen
      have hshape : st' = { st with seen := f :: st.seen } := by
        simp [cleanStep, hvf, hvd, hsd, hc1.2] at hstep
        exact hstep.symm
      subst hshape
      constructor
      · intro f' hf' es' hes'
        have hf2 : f' ∈ f :: st.seen := hf'
        have hes2 : lookupS st.d.value_dict f' = some es' := hes'
        rcases List.mem_cons.mp hf2 with rfl | hf3
        · rw [hvd] at hes2
          cases hes2
          constructor
          · intro kv' hkv'
            cases hkv'
            simpa using hsd
          · rintro ⟨hlen, _⟩
            simp at hlen
        · exact hA f' hf3 es' hes2
      · intro l' f' hl'
        have hl2 : lookupS st.d.variable_format_dict l' = some f' := hl'
        rcases hB l' f' hl2 with hmem | ⟨hseen, hsome⟩
        · rcases List.mem_cons.mp hmem with rfl | hmem2
          · rw [hvf] at hl2
            cases hl2
            exact Or.inr ⟨List.mem_cons_self _ _, by simp [hvd]⟩
          · exact Or.inl hmem2
        · exact Or.inr ⟨List.mem_cons_of_mem _ hseen, hsome⟩
  by_cases hc2 : es.length = 2 ∧ yesNoValues es = true
  · -- a Yes/No pair is converted to booleans
    have hfns : f ∉ st.seen := by
      intro hfs
      exact (hA f hfs es hvd).2 hc2
    have hshape : st' = { st with
        seen := f :: st.seen,
        d := { st.d with value_dict :=
          (insertS st.d.value_dict f (toBoolYesNo es)) } } := by
      simp [cleanStep, hvf, hvd, hc1, hc2, hfns, lookupS_insertS_self] at hstep
      exact hstep.symm
    subst hshape
    constructor
    · intro f' hf' es' hes'
      have hf2 : f' ∈ f :: st.seen := hf'
      have hes2 : lookupS (insertS st.d.value_dict f (toBoolYesNo es)) f'
          = some es' := hes'
      rcases List.mem_cons.mp hf2 with rfl | hf3
      · rw [lookupS_insertS_self] at hes2
        cases hes2
        exact stableEntries_toBool es
      · have hne : f' ≠ f := fun hh => hfns (hh ▸ hf3)
        rw [lookupS_insertS_ne _ f f' _ hne] at hes2
        exact hA f' hf3 es' hes2
    · intro l' f' hl'
      have hl2 : lookupS st.d.variable_format_dict l' = some f' := hl'
      rcases hB l' f' hl2 with hmem | ⟨hseen, hsome⟩
      · rcases List.mem_cons.mp hmem with rfl | hmem2
        · rw [hvf] at hl2
          cases hl2
          exact Or.inr ⟨List.mem_cons_self _ _, by simp [lookupS_insertS_self]⟩
        · exact Or.inl hmem2
      · refine Or.inr ⟨List.mem_cons_of_mem _ hseen, ?_⟩
        by_cases hne : f' = f
        · subst hne
          simp [lookupS_insertS_self]
        · show (lookupS (insertS st.d.value_dict f (toBoolYesNo es)) f').isSome
          rw [lookupS_insertS_ne _ f f' _ hne]
          exact hsome
  · -- no branch applies: only formats_seen grows
    have hshape : st' = { st with
        seen := (if f ∈ st.seen then st.seen else f :: st.seen) } := by
      simp [cleanStep, hvf, hvd, hc1, hc2] at hstep
      exact hstep.symm
    subst hshape
    have hsub : st.seen ⊆ (if f ∈ st.seen then st.seen else f :: st.seen) := by
      by_cases hf : f ∈ st.seen
      · simp [hf]
      · simp only [hf, if_false]
        exact List.subset_cons_self _ _
    have hfmem : f ∈ (if f ∈ st.seen then st.seen else f :: st.seen) := by
      by_cases hf : f ∈ st.seen
      · simp [hf]
      · simp [hf]
    constructor
    · intro f' hf' es' hes'
      have hes2 : lookupS st.d.value_dict f' = some es' := hes'
      have hf2 : f' ∈ (if f ∈ st.seen then st.seen else f :: st.seen) := hf'
      by_cases hfs : f ∈ st.seen
      · rw [if_pos hfs] at hf2
        exact hA f' hf2 es' hes2
      · rw [if_neg hfs] at hf2
        rcases List.mem_cons.mp hf2 with rfl | hf3
        · rw [hvd] at hes2
          cases hes2
          constructor
          · intro kv' hkv'
            exact absurd ⟨by simp [hkv'], hfs⟩ hc1
          · exact fun hh => hc2 hh
        · exact hA f' hf3 es' hes2
    · intro l' f' hl'
      have hl2 : lookupS st.d.variable_format_dict l' = some f' := hl'
      rcases hB l' f' hl2 with hmem | ⟨hseen, hsome⟩
      · rcases List.mem_cons.mp hmem with rfl | hmem2
        · rw [hvf] at hl2
          cases hl2
          exact Or.inr ⟨hfmem, by simp [hvd]⟩
        · exact Or.inl hmem2
      · exact Or.inr ⟨hsub hseen, hsome⟩

theorem cleanFold_preserves :
    ∀ (labels : List String) (st st' : CleanSt),
      List.foldlM cleanStep st labels = some st' → InvA st → InvB st labels →
      InvA st' ∧ InvB st' [] := by
  intro labels
  induction labels with
  | nil =>
      intro st st' hfold hA hB
      obtain rfl : st = st' := by simpa [List.foldlM] using hfold
      exact ⟨hA, hB⟩
  | cons l rest ih =>
      intro st st' hfold hA hB
      rcases hstep : cleanStep st l with _ | st1
      · rw [show List.foldlM cleanStep st (l :: rest)
            = (cleanStep st l).bind (fun st1 => List.foldlM cleanStep st1 rest)
            from rfl, hstep] at hfold
        simp at hfold
      · have hfold2 : List.foldlM cleanStep st1 rest = some st' := by
          rw [show List.foldlM cleanStep st (l :: rest)
              = (cleanStep st l).bind (fun s => List.foldlM cleanStep s rest)
              from rfl, hstep] at hfold
          simpa using hfold
        obtain ⟨hA1, hB1⟩ := cleanStep_preserves st st1 l rest hstep hA hB
        exact ih st1 st' hfold2 hA1 hB1

/-- A successful cleaning pass leaves the dictionary Stable. -/
theorem clean_formats_stable (d d' : DataDictionary)
    (h : DataDictionary.clean_formats d = some d') : Stable d' := by
  rcases hfold : List.foldlM cleanStep { erased := [], seen := [], d := d }
      (d.variable_format_dict.map Prod.fst) with _ | st'
  · rw [DataDictionary.clean_formats, hfold] at h
    simp at h
  · have hd : st'.d = d' := by
      have h2 := h
      rw [DataDictionary.clean_formats, hfold] at h2
      simpa using h2
    have hA0 : InvA { erased := [], seen := [], d := d } := by
      intro f hf
      exact absurd hf (List.not_mem_nil f)
    have hB0 : InvB { erased := [], seen := [], d := d }
        (d.variable_format_dict.map Prod.fst) := by
      intro l f hl
      exact Or.inl (mem_keys_of_lookupS _ l f hl)
    obtain ⟨hA, hB⟩ := cleanFold_preserves _ _ _ hfold hA0 hB0
    subst hd
    intro l f hf
    rcases hB l f hf with hmem | ⟨hseen, hsome⟩
    · exact absurd hmem (List.not_mem_nil l)
    · obtain ⟨es, hes⟩ := Option.isSome_iff_exists.mp hsome
      exact ⟨es, hes, hA f hseen es hes⟩

/-- Claim C6: clean_formats is idempotent — whenever a first pass
succeeds and produces a dictionary, running it again succeeds and
returns exactly the same dictionary (the same format associations,
null-rule maps and value dictionaries). -/
theorem claim_C6 (d d' : DataDictionary)
    (h : DataDictionary.clean_formats d = some d') :
    DataDictionary.clean_formats d' = some d' :=
  clean_formats_of_stable d' (clean_formats_stable d d' h)

/-- The result of cleaning the Scenario B dictionary, used to witness
idempotence on a concrete state. -/
def cleanedYesNoDict : DataDictionary :=
  { name := "SAMPLE", variable_dict := [("Q2", "Q2 consent")],
    variable_format_dict := [("Q2", "F1")], vbls_seen := [],
    variable_type := [("Q2", "int")],
    bytewise_encoding := [("Q2", ⟨0, 1⟩)],
    null_encoding := [],
    value_dict := [("F1", [(.int 1, .bool true), (.int 2, .bool false)])] }

/-- Witness for claim C6: cleaning the Scenario B dictionary once gives
cleanedYesNoDict, and cleaning that again returns it unchanged. -/
theorem claim_C6_witness :
    DataDictionary.clean_formats yesNoDict = some cleanedYesNoDict ∧
    DataDictionary.clean_formats cleanedYesNoDict = some cleanedYesNoDict := by
  have h1 : DataDictionary.clean_formats yesNoDict = some cleanedYesNoDict := by
    decide
  exact ⟨h1, claim_C6 yesNoDict cleanedYesNoDict h1⟩

/- ### Claim C1: decoding a record never raises -/

/-- The conditions under which decoding one field cannot raise an
uncaught exception: a declared type is present where it is consulted,
a marker field's substring parses as an integer, a float field's
applicable null-rule and dictionary keys are numeric, and a string
field that reaches multi-select meets only string keys and displays. -/
def fieldSafe (d : DataDictionary) (record : String) (l : String) : Bool :=
  match lookupS d.bytewise_encoding l with
  | Option.none => false
  | some bd =>
    if bd.end_pos ≥ (record.length : Int) - 1 then true
    else
      let value := pySliceStr record bd.start_pos bd.end_pos
      match lookupS d.variable_dict l with
      | Option.none => true
      | some vbl_name =>
        if allSpacesOrStars value then (lookupS d.variable_type l).isSome
        else if strContains vbl_name BF_IDENTIFIER then (pyIntParse value.data).isSome
        else
          match lookupS d.variable_type l with
          | Option.none => false
          | some ty =>
            if ty = "int" then true
            else if ty = "float" then
              match pyFloatParse value.data with
              | Option.none => true
              | some _ =>
                ((lookupS d.null_encoding l).getD []).all
                  (fun kv => (pyNum kv.1).isSome) &&
                (match lookupS d.variable_format_dict l with
                 | Option.none => true
                 | some f =>
                   match lookupS d.value_dict f with
                   | Option.none => true
                   | some es => es.all (fun kv => (pyNum kv.1).isSome))
            else if ty = "string" then
              match lookupS d.variable_format_dict l with
              | Option.none => true
              | some f =>
                match lookupS d.value_dict f with
                | Option.none => true
                | some es =>
                  pyMem ((lookupS d.null_encoding l).getD []) (.str value) ||
                  pyMem es (.str value) ||
                  (es.all (fun kv => match kv.1 with
                      | PyVal.str _ => true
                      | _ => false) &&
                   es.all (fun kv => match kv.2 with
                      | PyVal.str _ => true
                      | _ => false))
            else true

theorem floatTolScan_isSome (v : ℚ) (es : List (PyVal × PyVal))
    (h : es.all (fun kv => (pyNum kv.1).isSome) = true) :
    (floatTolScan v es).isSome := by
  induction es with
  | nil => simp [floatTolScan]
  | cons kv rest ih =>
      obtain ⟨k, w⟩ := kv
      simp only [List.all_cons, Bool.and_eq_true] at h
      rcases hnum : pyNum k with _ | kq
      · rw [hnum] at h
        simp at h
      · by_cases hle : |v - kq| ≤ FLOAT_ERROR
        · simp [floatTolScan, hnum, hle]
        · simp [floatTolScan, hnum, hle, ih h.2]

theorem bind_null_eq_pyMem (d : DataDictionary) (l : String) (value : PyVal) :
    ((lookupS d.null_encoding l).bind (fun ne => pyLookup ne value)).isSome
      = pyMem ((lookupS d.null_encoding l).getD []) value := by
  rcases h : lookupS d.null_encoding l with _ | ne
  · simp [pyMem, pyLookup]
  · simp [pyMem]

theorem genericTail_isSome_nonstring (d : DataDictionary) (l name : String)
    (value : PyVal) (ty : String) (hty : ty ≠ "string")
    (acc : List (String × PyVal)) : (genericTail d l name value ty acc).isSome := by
  rcases h1 : (lookupS d.null_encoding l).bind (fun ne => pyLookup ne value)
    with _ | repl
  · rcases h2 : lookupS d.variable_format_dict l with _ | f
    · simp [genericTail, h1, h2]
    · rcases h3 : lookupS d.value_dict f with _ | es
      · simp [genericTail, h1, h2, h3]
      · rcases h4 : pyLookup es value with _ | disp
        · simp [genericTail, h1, h2, h3, h4, hty]
        · simp [genericTail, h1, h2, h3, h4]
  · simp [genericTail, h1]

theorem genericTail_isSome_string (d : DataDictionary) (l name : String)
    (value : String) (acc : List (String × PyVal))
    (hsafe : ∀ f es, lookupS d.variable_format_dict l = some f →
      lookupS d.value_dict f = some es →
      pyMem ((lookupS d.null_encoding l).getD []) (.str value) = true ∨
      pyMem es (.str value) = true ∨
      ((es.all (fun kv => match kv.1 with
          | PyVal.str _ => true
          | _ => false)) = true ∧
       (es.all (fun kv => match kv.2 with
          | PyVal.str _ => true
          | _ => false)) = true)) :
    (genericTail d l name (.str value) "string" acc).isSome := by
  rcases h1 : (lookupS d.null_encoding l).bind (fun ne => pyLookup ne (.str value))
    with _ | repl
  · rcases h2 : lookupS d.variable_format_dict l with _ | f
    · simp [genericTail, h1, h2]
    · rcases h3 : lookupS d.value_dict f with _ | es
      · simp [genericTail, h1, h2, h3]
      · rcases h4 : pyLookup es (.str value) with _ | disp
        · rcases hsafe f es h2 h3 with hnull | hkey | ⟨hks, hds⟩
          · rw [← bind_null_eq_pyMem, h1] at hnull
            simp at hnull
          · rw [pyMem, h4] at hkey
            simp at hkey
          · have hexists : ∀ kv ∈ es, (∃ ks, kv.1 = PyVal.str ks) ∧
                ∃ dsp, kv.2 = PyVal.str dsp := by
              intro kv hkv
              rw [List.all_eq_true] at hks hds
              have hk := hks kv hkv
              have hd := hds kv hkv
              constructor
              · rcases hc : kv.1 with _ | b | n | q | s
                · rw [hc] at hk; simp at hk
                · rw [hc] at hk; simp at hk
                · rw [hc] at hk; simp at hk
                · rw [hc] at hk; simp at hk
                · exact ⟨s, rfl⟩
              · rcases hc : kv.2 with _ | b | n | q | s
                · rw [hc] at hd; simp at hd
                · rw [hc] at hd; simp at hd
                · rw [hc] at hd; simp at hd
                · rw [hc] at hd; simp at hd
                · exact ⟨s, rfl⟩
            have hms := multiSelect_spec value es hexists
            simp [genericTail, h1, h2, h3, h4, hms]
        · simp [genericTail, h1, h2, h3, h4]
  · simp [genericTail, h1]

theorem floatTail_isSome (d : DataDictionary) (l name : String) (v : ℚ)
    (acc : List (String × PyVal))
    (hn : ((lookupS d.null_encoding l).getD []).all
      (fun kv => (pyNum kv.1).isSome) = true)
    (hfmt : ∀ f es, lookupS d.variable_format_dict l = some f →
      lookupS d.value_dict f = some es →
      es.all (fun kv => (pyNum kv.1).isSome) = true) :
    (floatTail d l name v acc).isSome := by
  have hAfter : (∀ f es, lookupS d.variable_format_dict l = some f →
      lookupS d.value_dict f = some es →
      es.all (fun kv => (pyNum kv.1).isSome) = true) →
      (match lookupS d.variable_format_dict l with
        | some vbl_format =>
          match lookupS d.value_dict vbl_format with
          | some es =>
            match floatTolScan v es with
            | Option.none => (Option.none : Option (List (String × PyVal)))
            | some (some disp) => some (insertS acc name (.str (pyStr disp)))
            | some Option.none => some (insertS acc name (.float v))
          | Option.none => some acc
        | Option.none => some (insertS acc name (.float v))).isSome := by
    intro hf
    rcases h2 : lookupS d.variable_format_dict l with _ | f
    · simp
    · rcases h3 : lookupS d.value_dict f with _ | es
      · simp [h3]
      · rcases hscan : floatTolScan v es with _ | inner
        · exact absurd hscan (by
            have := floatTolScan_isSome v es (hf f es h2 h3)
            intro hh
            rw [hh] at this
            simp at this)
        · rcases inner with _ | disp
          · simp [h3, hscan]
          · simp [h3, hscan]
  rcases h1 : lookupS d.null_encoding l with _ | ne
  · have h := hAfter hfmt
    simpa [floatTail, h1] using h
  · rcases hscan : floatTolScan v ne with _ | inner
    · exact absurd hscan (by
        have := floatTolScan_isSome v ne (by simpa [h1] using hn)
        intro hh
        rw [hh] at this
        simp at this)
    · rcases inner with _ | repl
      · have h := hAfter hfmt
        simpa [floatTail, h1, hscan] using h
      · simp [floatTail, h1, hscan]

theorem parseField_isSome_of_fieldSafe (d : DataDictionary) (record : String)
    (l : String) (hsafe : fieldSafe d record l = true)
    (acc : List (String × PyVal)) : (parseField d record acc l).isSome := by
  rcases hbd : lookupS d.bytewise_encoding l with _ | bd
  · simp only [fieldSafe, hbd] at hsafe
    exact absurd hsafe (by simp)
  by_cases hlen : bd.end_pos ≥ (record.length : Int) - 1
  · simp [parseField, hbd, hlen]
  simp only [fieldSafe, hbd, if_neg hlen] at hsafe
  rcases hname : lookupS d.variable_dict l with _ | name
  · rw [hname] at hsafe
    simp [parseField, hbd, hlen, decodeValue, hname]
  rw [hname] at hsafe
  by_cases hsp : allSpacesOrStars (pySliceStr record bd.start_pos bd.end_pos) = true
  · simp only [hsp, if_true] at hsafe
    obtain ⟨ty, hty⟩ := Option.isSome_iff_exists.mp hsafe
    simp [parseField, hbd, hlen, decodeValue, hname, hsp, hty]
  by_cases hbf : strContains name BF_IDENTIFIER = true
  · simp only [hsp, Bool.false_eq_true, if_false, hbf, if_true] at hsafe
    obtain ⟨v, hv⟩ := Option.isSome_iff_exists.mp hsafe
    simp only [parseField, hbd, if_neg hlen, decodeValue, hname, hsp,
      Bool.false_eq_true, if_false, hbf, if_true, hv]
    split_ifs <;> simp
  rcases hty : lookupS d.variable_type l with _ | ty
  · rw [hty] at hsafe
    simp only [hsp, Bool.false_eq_true, if_false, hbf] at hsafe
  rw [hty] at hsafe
  simp only [hsp, Bool.false_eq_true, if_false, hbf] at hsafe
  by_cases hint : ty = "int"
  · subst hint
    rcases hparse : pyIntParse (pySliceStr record bd.start_pos bd.end_pos).data
      with _ | n
    · simp [parseField, hbd, hlen, decodeValue, hname, hsp, hbf, hty, hparse]
    · have h := genericTail_isSome_nonstring d l name (.int n) "int" (by decide) acc
      simp [parseField, hbd, hlen, decodeValue, hname, hsp, hbf, hty, hparse, h]
  by_cases hflt : ty = "float"
  · subst hflt
    rcases hparse : pyFloatParse (pySliceStr record bd.start_pos bd.end_pos).data
      with _ | v
    · simp [parseField, hbd, hlen, decodeValue, hname, hsp, hbf, hty, hparse]
    · rw [hparse] at hsafe
      rw [if_neg (show ¬("float" : String) = "int" by decide)] at hsafe
      rw [if_pos (rfl : ("float" : String) = "float")] at hsafe
      simp only [Bool.and_eq_true] at hsafe
      have hfmt : ∀ f es, lookupS d.variable_format_dict l = some f →
          lookupS d.value_dict f = some es →
          es.all (fun kv => (pyNum kv.1).isSome) = true := by
        intro f es h2 h3
        have hh := hsafe.2
        simp only [h2, h3] at hh
        exact hh
      have h := floatTail_isSome d l name v acc hsafe.1 hfmt
      simp [parseField, hbd, hlen, decodeValue, hname, hsp, hbf, hty, hparse, h]
  by_cases hstr : ty = "string"
  · subst hstr
    have hsafe2 : ∀ f es, lookupS d.variable_format_dict l = some f →
        lookupS d.value_dict f = some es →
        pyMem ((lookupS d.null_encoding l).getD [])
          (.str (pySliceStr record bd.start_pos bd.end_pos)) = true ∨
        pyMem es (.str (pySliceStr record bd.start_pos bd.end_pos)) = true ∨
        ((es.all (fun kv => match kv.1 with
            | PyVal.str _ => true
            | _ => false)) = true ∧
         (es.all (fun kv => match kv.2 with
            | PyVal.str _ => true
            | _ => false)) = true) := by
      intro f es h2 h3
      have hh := hsafe
      simp only [reduceIte, h2, h3] at hh
      rcases Bool.or_eq_true _ _ |>.mp hh with h | h
      · rcases Bool.or_eq_true _ _ |>.mp h with h' | h'
        · exact Or.inl h'
        · exact Or.inr (Or.inl h')
      · exact Or.inr (Or.inr (Bool.and_eq_true _ _ |>.mp h))
    have h := genericTail_isSome_string d l name
      (pySliceStr record bd.start_pos bd.end_pos) acc hsafe2
    simp [parseField, hbd, hlen, decodeValue, hname, hsp, hbf, hty, h]
  · have h := genericTail_isSome_nonstring d l name
      (.str (pySliceStr record bd.start_pos bd.end_pos)) ty hstr acc
    simp [parseField, hbd, hlen, decodeValue, hname, hsp, hbf, hty, hint, hflt, h]

/-- Claim C1 (amended): for a dictionary and record in which every
field satisfies the fieldSafe conditions — every consulted declared
type present, marker substrings parsing as integers, numeric keys on
float fields, string keys and displays when multi-select is reached —
parse returns a mapping and never raises; each field-level soft
failure only leaves that field out. -/
theorem claim_C1_amended (d : DataDictionary) (record : String)
    (hsafe : ∀ l ∈ d.bytewise_encoding.map Prod.fst, fieldSafe d record l = true) :
    (DataDictionary.parse d record).isSome := by
  unfold DataDictionary.parse
  suffices h : ∀ (labels : List String) (acc : List (String × PyVal)),
      (∀ l ∈ labels, fieldSafe d record l = true) →
      (List.foldlM (parseField d record) acc labels).isSome from h _ [] hsafe
  intro labels
  induction labels with
  | nil =>
      intro acc _
      simp [List.foldlM]
  | cons l rest ih =>
      intro acc hs
      obtain ⟨res, hres⟩ := Option.isSome_iff_exists.mp
        (parseField_isSome_of_fieldSafe d record l (hs l (List.mem_cons_self _ _)) acc)
      have hstep : List.foldlM (parseField d record) acc (l :: rest)
          = (parseField d record acc l).bind
            (fun acc1 => List.foldlM (parseField d record) acc1 rest) := rfl
      rw [hstep, hres]
      simpa using ih res (fun x hx => hs x (List.mem_cons_of_mem _ hx))

/-- Claim C1, counterexample: the marker dictionary is finalized
(clean_formats is the identity on it), its field's byte range is
within the record, yet parse raises — the marker branch's bare int
conversion of the unparsable substring xyz propagates out of parse,
so no mapping at all is returned for the record. -/
theorem claim_C1_counterexample :
    DataDictionary.clean_formats markerDict = some markerDict ∧
    DataDictionary.parse markerDict "xyz \n" = Option.none := by
  exact ⟨by decide, by decide⟩

/-- Witness for claim C1 (amended): the concrete Scenario B dictionary
decodes the record 1 without raising. -/
theorem claim_C1_witness :
    (DataDictionary.parse cleanedYesNoDict "1 \n").isSome := by
  exact claim_C1_amended cleanedYesNoDict "1 \n" (by decide)

end FlatFile
